import Mathlib

/-!
Verification of the battery-swapping fixed-path optimizer.

This file is a shallow embedding, in Lean 4, of the parts of the repository
relevant to the checked claims:

* `src/streamlit_app/main.py` : `compute_segment_energy` (energy and timing model);
* `src/fixed_path_dp.py` : `Station`, `FixedPathInputs` (with its `__post_init__`
  validation), `BatteryCountState` and its operations, `FixedPathOptimizer`
  (`solve`, `_candidate_levels`, `_select_terminal_state`, `_reconstruct`,
  `_improves`, `_to_step`, `_from_step`, `_energy_to_steps`).

Python floats are modelled as rationals (`ℚ`), with Python's `round`
(banker's rounding) and `int` truncation embedded explicitly.  Python
exceptions are modelled by `Except String`.  Python dicts are modelled by
association lists that preserve insertion order and replace values in place,
matching dict iteration-order semantics.
-/

namespace FixedPathDP

/-- The numeric tolerance 1e-9 used by `_improves` and the pre-run
energy-balance check in `fixed_path_dp.py`. -/
def tol : ℚ := 1 / 1000000000

/-- Python `round` on a rational: round half to even (banker's rounding),
as Python's builtin `round` behaves on the exactly-represented values used
in this development. -/
def pyRound (q : ℚ) : ℤ :=
  let f := ⌊q⌋
  let r := q - (f : ℚ)
  if r < 1 / 2 then f
  else if 1 / 2 < r then f + 1
  else if Even f then f else f + 1

/-- Python `int(...)` applied to a rational: truncation toward zero. -/
def pyInt (q : ℚ) : ℤ :=
  if 0 ≤ q then ⌊q⌋ else -⌊-q⌋

/-!
## Energy and timing model

`compute_segment_energy` from `src/streamlit_app/main.py` (lines 44-89).
The Python signature carries default parameters
`base_consumption_laden=245.0, base_consumption_unladen=207.0,
boat_speed_laden=5.0, boat_speed_unladen=6.0`; here they are passed
explicitly.  The Python `(mode or "laden")` treats an empty string as
falsy, hence the empty-string test below.  Returns `(energy_kwh,
travel_time_hr)` on success, a domain error when the ground speed is
non-positive.
-/

def compute_segment_energy (distance_nm current_knots : ℚ) (mode : String)
    (base_consumption_laden base_consumption_unladen : ℚ)
    (boat_speed_laden boat_speed_unladen : ℚ) : Except String (ℚ × ℚ) :=
  let m := (if mode = "" then "laden" else mode).toLower
  let base_per_nm := if m = "unladen" then base_consumption_unladen else base_consumption_laden
  let boat_speed_knots := if m = "unladen" then boat_speed_unladen else boat_speed_laden
  let ground_speed := boat_speed_knots + current_knots
  if ground_speed ≤ 0 then
    Except.error "Ground speed non-positive"
  else
    let travel_time_hr := distance_nm / ground_speed
    let base_energy := distance_nm * base_per_nm
    let multiplier : ℚ :=
      if current_knots = 0 then 1
      else if current_knots < 0 then 12 / 10
      else 8 / 10
    Except.ok (base_energy * multiplier, travel_time_hr)

/-!
## Dominance predicate

`FixedPathOptimizer._improves` from `src/fixed_path_dp.py` (lines
1414-1422).  The stored entry is an `Option (ℚ × ℚ)`: `none` models the
`math.inf` sentinel that the Python code uses when a DP key has no entry
yet (the `not math.isfinite(old_cost)` branch); a `some (cost, time)`
models a finite stored entry.
-/

def improves (new_cost new_time : ℚ) (old : Option (ℚ × ℚ)) : Bool :=
  match old with
  | none => true
  | some (old_cost, old_time) =>
    if new_cost < old_cost - tol then true
    else if |new_cost - old_cost| ≤ tol ∧ new_time < old_time - tol then true
    else false

/-!
## Battery-inventory state

`BatteryCountState` from `src/fixed_path_dp.py` (lines 284-369) with its
operations `add_energy`, `remove_n_highest`, `get_available_for_swap`,
`get_total_batteries`, `encode`, `add_depleted_batteries`.  The Python
methods mutate `self`; here each returns the updated state (and the
Python return value where there is one).
-/

structure BatteryCountState where
  capacity_per_battery_kwh : ℚ
  charged : ℤ
  total : ℤ
  start_empty_soc : ℚ
  partial_energy_kwh : ℚ
deriving DecidableEq

/-- Default field values of the Python dataclass (`charged=0, total=0,
start_empty_soc=0.2, partial_energy_kwh=0.0`). -/
def BatteryCountState.mkDefault (cap : ℚ) (charged total : ℤ) : BatteryCountState :=
  { capacity_per_battery_kwh := cap, charged := charged, total := total,
    start_empty_soc := 2 / 10, partial_energy_kwh := 0 }

/-- `BatteryCountState.add_energy` (lines 297-317).  The Python method
returns `0.0` in every branch, so only the updated state is returned. -/
def BatteryCountState.add_energy (s : BatteryCountState)
    (energy_kwh charging_efficiency min_swap_soc : ℚ) : BatteryCountState :=
  let effective_energy := energy_kwh * charging_efficiency + s.partial_energy_kwh
  let per_to_min := max 0 ((min_swap_soc - s.start_empty_soc) * s.capacity_per_battery_kwh)
  if per_to_min ≤ 0 then
    { s with partial_energy_kwh := effective_energy }
  else
    let can_make : ℤ := ⌊effective_energy / per_to_min⌋
    let avail_spares : ℤ := max 0 (s.total - s.charged)
    let to_create := min can_make avail_spares
    if 0 < to_create then
      { s with charged := s.charged + to_create,
               partial_energy_kwh := effective_energy - (to_create : ℚ) * per_to_min }
    else
      { s with partial_energy_kwh := effective_energy }

/-- `BatteryCountState.remove_n_highest` (lines 319-325): removes
`min n charged` containers, returns the state and the energy handed to
the vessel. -/
def BatteryCountState.remove_n_highest (s : BatteryCountState) (n : ℤ) :
    BatteryCountState × ℚ :=
  let take := min s.charged n
  ({ s with charged := s.charged - take }, (take : ℚ) * s.capacity_per_battery_kwh)

/-- `BatteryCountState.get_available_for_swap` (lines 327-328): returns
`charged` regardless of the threshold argument. -/
def BatteryCountState.get_available_for_swap (s : BatteryCountState) : ℤ :=
  s.charged

/-- `BatteryCountState.get_total_batteries` (lines 330-331). -/
def BatteryCountState.get_total_batteries (s : BatteryCountState) : ℤ :=
  s.total

/-- `BatteryCountState.encode` (lines 333-334). -/
def BatteryCountState.encode (s : BatteryCountState) : ℤ :=
  s.charged

/-- `BatteryCountState.add_depleted_batteries` (lines 343-369): adds the
residual energy of `n` returned containers to the buffer; no-op when
`n ≤ 0`. -/
def BatteryCountState.add_depleted_batteries (s : BatteryCountState)
    (n : ℤ) (arrival_soc : ℚ) : BatteryCountState :=
  if n ≤ 0 then s
  else
    { s with partial_energy_kwh :=
        s.partial_energy_kwh + (n : ℚ) * (arrival_soc * s.capacity_per_battery_kwh) }

/-!
## Static data model

`SegmentOption`, `Segment`, `Station`, `FixedPathInputs` from
`src/fixed_path_dp.py` (lines 141-244).  `operating_hours` is omitted: no
code path read by any claim consults it.  `inventory_mode` is fixed to
`'counts'` (the only supported mode; the `aggregate` branch was removed
from the source).  `vessel_specs` drives exactly one quantity in the
optimizer, `vessel_specs.get_hotelling_power_kw()`; it is embedded as
`vessel_hotelling_kw : Option ℚ`, `none` standing for `vessel_specs is
None` and `some p` for a specs object whose hotelling lookup returns `p`.
-/

structure SegmentOption where
  label : String
  travel_time_hr : ℚ
  energy_kwh : ℚ
  extra_cost : ℚ
deriving DecidableEq

structure Segment where
  start : String
  endName : String
  options : List SegmentOption
deriving DecidableEq

structure Station where
  name : String
  docking_time_hr : ℚ := 2
  swap_operation_time_hr : ℚ := 1 / 2
  mandatory_stop : Bool := false
  allow_swap : Bool := true
  force_swap : Bool := false
  partial_swap_allowed : Bool := false
  available_batteries : Option ℤ := none
  total_batteries : Option ℤ := none
  energy_cost_per_kwh : ℚ := 25 / 100
  charging_power_kw : ℚ := 0
  charging_efficiency : ℚ := 1
  charging_allowed : Bool := false
  swap_cost : ℚ := 0
  base_service_fee : ℚ := 15
  degradation_fee_per_kwh : ℚ := 0
  base_charging_fee : ℚ := 25
  background_charging_power_kw : ℚ := 2000
  background_charging_allowed : Bool := true
  total_grid_power_kw : ℚ := 0
  min_swap_soc : ℚ := 1
deriving DecidableEq

structure FixedPathInputs where
  stations : List Station
  segments : List Segment
  battery_capacity_kwh : ℚ
  battery_container_capacity_kwh : ℚ
  initial_soc_kwh : ℚ
  final_soc_min_kwh : ℚ
  energy_cost_per_kwh : ℚ
  min_soc_kwh : ℚ := 0
  soc_step_kwh : ℚ := 1
  start_time_hr : ℚ := 0
  vessel_hotelling_kw : Option ℚ := none
  vessel_charging_power_kw : ℚ := 1000000000
  time_quant_hr : ℚ := 1 / 4
deriving DecidableEq

/-- Per-station validation checks inside `FixedPathInputs.__post_init__`
(lines 227-241), in source order.  Returns the first error raised, if
any. -/
def stationChecks : List Station → Except String Unit
  | [] => Except.ok ()
  | station :: rest =>
    if station.docking_time_hr < 0 then
      Except.error "docking time must be non-negative"
    else if station.available_batteries.any (fun a => decide (a < 0)) then
      Except.error "available batteries cannot be negative"
    else if station.total_batteries.any (fun a => decide (a < 0)) then
      Except.error "total batteries cannot be negative"
    else if station.charging_power_kw < 0 then
      Except.error "charging power cannot be negative"
    else if station.background_charging_power_kw < 0 then
      Except.error "background_charging_power_kw cannot be negative"
    else if station.total_grid_power_kw < 0 then
      Except.error "total_grid_power_kw cannot be negative"
    else if ¬ (0 ≤ station.charging_efficiency ∧ station.charging_efficiency ≤ 1) then
      Except.error "charging efficiency must be between 0 and 1"
    else stationChecks rest

/-- `FixedPathInputs.__post_init__` (lines 208-243): the full validation
run on construction, in source order.  `Except.ok ()` models a
construction that raises no `ValueError`. -/
def postInit (inp : FixedPathInputs) : Except String Unit :=
  if inp.stations.length ≠ inp.segments.length + 1 then
    Except.error "stations count must be segments + 1"
  else if inp.battery_capacity_kwh < inp.initial_soc_kwh then
    Except.error "initial SoC exceeds capacity"
  else if inp.initial_soc_kwh < inp.min_soc_kwh then
    Except.error "initial SoC below minimum operating SoC"
  else if inp.soc_step_kwh ≤ 0 then
    Except.error "SoC step must be positive"
  else if inp.final_soc_min_kwh < 0 then
    Except.error "final SoC requirement must be non-negative"
  else if inp.min_soc_kwh < 0 then
    Except.error "minimum operating SoC must be non-negative"
  else if inp.battery_capacity_kwh < inp.min_soc_kwh then
    Except.error "minimum operating SoC exceeds capacity"
  else if inp.battery_capacity_kwh < inp.final_soc_min_kwh then
    Except.error "final SoC requirement exceeds capacity"
  else if inp.final_soc_min_kwh < inp.min_soc_kwh then
    Except.error "final SoC requirement cannot be below minimum operating SoC"
  else
    match stationChecks inp.stations with
    | Except.error e => Except.error e
    | Except.ok () =>
      if inp.vessel_charging_power_kw < 0 then
        Except.error "vessel_charging_power_kw cannot be negative"
      else Except.ok ()

/-!
## Optimizer quantization helpers

`FixedPathOptimizer._to_step`, `_from_step`, `_energy_to_steps` (lines
1403-1412) and the derived quantities of `__init__` (lines 416-425).
-/

/-- `_to_step`: `int(round(soc_kwh / step))`. -/
def toStep (inp : FixedPathInputs) (soc_kwh : ℚ) : ℤ :=
  pyRound (soc_kwh / inp.soc_step_kwh)

/-- `_from_step`: `level * step`. -/
def fromStep (inp : FixedPathInputs) (level : ℤ) : ℚ :=
  (level : ℚ) * inp.soc_step_kwh

/-- `_energy_to_steps`: `int(math.ceil(energy_kwh / step))`. -/
def energyToSteps (inp : FixedPathInputs) (energy_kwh : ℚ) : ℤ :=
  ⌈energy_kwh / inp.soc_step_kwh⌉

/-- `self._capacity_steps` from `__init__`. -/
def capacitySteps (inp : FixedPathInputs) : ℤ :=
  toStep inp inp.battery_capacity_kwh

/-- `self._min_operating_level` from `__init__`. -/
def minOperatingLevel (inp : FixedPathInputs) : ℤ :=
  toStep inp inp.min_soc_kwh

/-- Hotelling power used by the optimizer: `vessel_specs.get_hotelling_power_kw()`
when vessel specs are present, else `0.0` (lines 754-756 and 1167-1169). -/
def hotellingPowerKw (inp : FixedPathInputs) : ℚ :=
  inp.vessel_hotelling_kw.getD 0

/-!
## Candidate-operation generator

`FixedPathOptimizer._candidate_levels` (lines 733-1093).  A candidate is
the 10-tuple the Python code appends to `options`.
-/

structure Candidate where
  level_after_operation : ℤ
  operation_cost : ℚ
  docking_time : ℚ
  swapped : Bool
  charged : Bool
  operation_type : String
  num_containers_swapped : ℤ
  energy_charged_kwh : ℚ
  hotelling_energy_kwh : ℚ
  precharge_energy_kwh : ℚ
deriving DecidableEq

/-- The background power available during a dwell, shared by the none /
swap / charge / hybrid sections (lines 778-784, 829-835, 945-952,
1061-1076): `bg_max` is the explicit background power when positive, else
the station grid power; when the grid power is positive the result is
additionally capped by grid power minus the vessel's charging draw. -/
def bgAvailable (station : Station) (vessel_charging_power_used : ℚ) : ℚ :=
  let bg_max := if 0 < station.background_charging_power_kw then
    station.background_charging_power_kw else station.total_grid_power_kw
  if 0 < station.total_grid_power_kw then
    max 0 (min bg_max (station.total_grid_power_kw - vessel_charging_power_used))
  else
    max 0 bg_max

/-- `total_num_containers` (lines 791-793 and 978-980):
`int(capacity / per_container)`, floored at 1. -/
def totalNumContainers (inp : FixedPathInputs) : ℤ :=
  let n := pyInt (inp.battery_capacity_kwh / inp.battery_container_capacity_kwh)
  if n < 1 then 1 else n

/-- `candidate_swap_counts` (lines 796-814 and 983-994): under partial
swap, `1 .. depleted_containers` where ready containers on board are
estimated from the arrival SoC; under full swap, the full container set
only. -/
def candidateSwapCounts (inp : FixedPathInputs) (station : Station)
    (current_soc_kwh : ℚ) (total_num_containers : ℤ) : List ℤ :=
  if station.partial_swap_allowed then
    let per_container_ready_kwh :=
      max (1 / 1000000000000) (station.min_swap_soc * inp.battery_container_capacity_kwh)
    let ready_containers :=
      min ⌊current_soc_kwh / per_container_ready_kwh⌋ total_num_containers
    let depleted0 := total_num_containers - ready_containers
    let depleted1 := if depleted0 < 0 then 0 else depleted0
    let depleted_containers :=
      if current_soc_kwh < inp.battery_capacity_kwh ∧ depleted1 = 0 then 1 else depleted1
    if 1 ≤ depleted_containers then
      (List.range depleted_containers.toNat).map (fun i => (i : ℤ) + 1)
    else []
  else [total_num_containers]

/-- One swap candidate for a given container count (lines 861-904). -/
def mkSwapCandidate (inp : FixedPathInputs) (station : Station)
    (current_soc_kwh hotelling_power_kw precharge_energy : ℚ)
    (containers_to_swap : ℤ) : Candidate :=
  let swap_time := if station.mandatory_stop then station.docking_time_hr
    else station.swap_operation_time_hr
  let service_fee_per_container := station.base_service_fee + station.swap_cost
  let service_fee := service_fee_per_container * (containers_to_swap : ℚ)
  let energy_transferred_kwh := (containers_to_swap : ℚ) * inp.battery_container_capacity_kwh
  let energy_cost := energy_transferred_kwh * station.energy_cost_per_kwh
  let degradation_cost := energy_transferred_kwh * station.degradation_fee_per_kwh
  let hotelling_energy_swap := hotelling_power_kw * swap_time
  let hotelling_cost := hotelling_energy_swap * station.energy_cost_per_kwh
  let total_swap_cost := service_fee + energy_cost + degradation_cost + hotelling_cost
  let soc_after_swap_kwh := max 0 (min inp.battery_capacity_kwh
    (current_soc_kwh + energy_transferred_kwh - hotelling_energy_swap))
  { level_after_operation := toStep inp soc_after_swap_kwh,
    operation_cost := total_swap_cost,
    docking_time := swap_time,
    swapped := true, charged := false, operation_type := "swap",
    num_containers_swapped := containers_to_swap,
    energy_charged_kwh := 0,
    hotelling_energy_kwh := hotelling_energy_swap,
    precharge_energy_kwh := precharge_energy }

/-- The swap-candidate loop (lines 850-904): for each swap size, skip it
when the effective available count falls short -- unless the station
forces a swap, in which case the shortage raises. -/
def swapCandidateLoop (inp : FixedPathInputs) (station : Station)
    (current_soc_kwh hotelling_power_kw precharge_energy : ℚ)
    (effective_available : Option ℤ) : List ℤ → Except String (List Candidate)
  | [] => Except.ok []
  | containers_to_swap :: rest =>
    if effective_available.any (fun ea => decide (ea < containers_to_swap)) then
      if station.force_swap then
        Except.error ("Station " ++ station.name ++
          " requires swap but not enough batteries available")
      else
        swapCandidateLoop inp station current_soc_kwh hotelling_power_kw
          precharge_energy effective_available rest
    else do
      let rest' ← swapCandidateLoop inp station current_soc_kwh hotelling_power_kw
        precharge_energy effective_available rest
      Except.ok (mkSwapCandidate inp station current_soc_kwh hotelling_power_kw
        precharge_energy containers_to_swap :: rest')

/-- One charging candidate for a given charge duration, or `none` when the
energy added is below the 1 kWh threshold (lines 915-965). -/
def mkChargeCandidate (inp : FixedPathInputs) (station : Station)
    (current_soc_kwh hotelling_power_kw : ℚ) (charge_time : ℚ) : Option Candidate :=
  let available_charging_kw := min station.charging_power_kw inp.vessel_charging_power_kw
  let energy_charged_kwh := min (charge_time * available_charging_kw * station.charging_efficiency)
    (inp.battery_capacity_kwh - current_soc_kwh)
  if energy_charged_kwh < 1 then none
  else
    let new_soc_kwh := current_soc_kwh + energy_charged_kwh
    let charging_energy_cost := energy_charged_kwh * station.energy_cost_per_kwh
    let hotelling_energy_charge := hotelling_power_kw * charge_time
    let hotelling_cost := hotelling_energy_charge * station.energy_cost_per_kwh
    let total_charging_cost := charging_energy_cost + station.base_charging_fee + hotelling_cost
    let soc_after_charge_kwh := max 0 (new_soc_kwh - hotelling_energy_charge)
    let precharge_during_charge :=
      if station.background_charging_allowed ∧ 0 < charge_time then
        bgAvailable station available_charging_kw * charge_time * station.charging_efficiency
      else 0
    some { level_after_operation := toStep inp soc_after_charge_kwh,
           operation_cost := total_charging_cost,
           docking_time := charge_time,
           swapped := false, charged := true, operation_type := "charge",
           num_containers_swapped := 0,
           energy_charged_kwh := energy_charged_kwh,
           hotelling_energy_kwh := hotelling_energy_charge,
           precharge_energy_kwh := precharge_during_charge }

/-- The discrete charge-duration menu (lines 908-913): the fixed set,
plus the docking time sorted in when the stop is mandatory. -/
def chargeTimeOptions (station : Station) : List ℚ :=
  let base : List ℚ := [1/2, 1, 2, 3, 4, 6, 8, 12]
  if station.mandatory_stop ∧ station.docking_time_hr ∉ base then
    (base ++ [station.docking_time_hr]).mergeSort (fun a b => decide (a ≤ b))
  else base

/-- One hybrid candidate for a given extra-charge duration and swap count,
or `none` when skipped (lines 1012-1091). -/
def mkHybridCandidate (inp : FixedPathInputs) (station : Station)
    (hotelling_power_kw : ℚ) (charge_time : ℚ) (containers_to_swap : ℤ) :
    Option Candidate :=
  let base_time := if station.mandatory_stop then station.docking_time_hr
    else station.swap_operation_time_hr
  let total_time := base_time + charge_time
  let soc_after_swap := inp.battery_capacity_kwh
  let available_charging_kw := min station.charging_power_kw inp.vessel_charging_power_kw
  let energy_charged_kwh := min (charge_time * available_charging_kw * station.charging_efficiency)
    (inp.battery_capacity_kwh - soc_after_swap)
  if energy_charged_kwh < 1/10 ∧ containers_to_swap = 0 then none
  else
    let final_soc_kwh := soc_after_swap + energy_charged_kwh
    let hotelling_energy_hybrid := hotelling_power_kw * total_time
    let soc_after_hybrid_kwh := max 0 (final_soc_kwh - hotelling_energy_hybrid)
    let service_fee_per_container := station.base_service_fee + station.swap_cost
    let service_fee := service_fee_per_container * (containers_to_swap : ℚ)
    let swap_energy_kwh := (containers_to_swap : ℚ) * inp.battery_container_capacity_kwh
    let swap_energy_cost := swap_energy_kwh * station.energy_cost_per_kwh
    let degradation_cost := swap_energy_kwh * station.degradation_fee_per_kwh
    let swap_cost_total := service_fee + swap_energy_cost + degradation_cost
    let charge_cost := energy_charged_kwh * station.energy_cost_per_kwh + station.base_charging_fee
    let hotelling_cost := hotelling_energy_hybrid * station.energy_cost_per_kwh
    let total_hybrid_cost := swap_cost_total + charge_cost + hotelling_cost
    let vessel_charging_power_used := min station.charging_power_kw inp.vessel_charging_power_kw
    let hybrid_precharge :=
      if station.background_charging_allowed ∧ 0 < total_time then
        let energy_swap_precharge := bgAvailable station 0 * base_time * station.charging_efficiency
        let energy_charge_precharge :=
          bgAvailable station vessel_charging_power_used * charge_time * station.charging_efficiency
        energy_swap_precharge + energy_charge_precharge
      else 0
    some { level_after_operation := toStep inp soc_after_hybrid_kwh,
           operation_cost := total_hybrid_cost,
           docking_time := total_time,
           swapped := true, charged := true, operation_type := "hybrid",
           num_containers_swapped := containers_to_swap,
           energy_charged_kwh := energy_charged_kwh,
           hotelling_energy_kwh := hotelling_energy_hybrid,
           precharge_energy_kwh := hybrid_precharge }

/-- The hybrid effective-available count (lines 996-1010): unlike the
swap section, the during-dwell precharge here draws on the *vessel*
charging infrastructure (`charging_power_kw`), and a shortage skips the
candidate without raising. -/
def hybridEffectiveAvailable (inp : FixedPathInputs) (station : Station) : Option ℤ :=
  match station.available_batteries with
  | none => none
  | some initial_charged =>
    let total_stock_val := station.total_batteries.getD initial_charged
    let pre_swap_time := if station.mandatory_stop then station.docking_time_hr
      else station.swap_operation_time_hr
    let precharge :=
      if station.charging_allowed ∧ 0 < station.charging_power_kw ∧ 0 < pre_swap_time then
        ⌊(pre_swap_time * station.charging_power_kw * station.charging_efficiency) /
          inp.battery_container_capacity_kwh⌋
      else 0
    some (min total_stock_val (initial_charged + precharge))

/-- `FixedPathOptimizer._candidate_levels` (lines 733-1093).  The
`arrival_time_hr` argument is part of the Python signature but unused in
the body; it is kept for signature fidelity. -/
def candidate_levels (inp : FixedPathInputs) (station : Station) (level : ℤ)
    (arrival_time_hr : ℚ) : Except String (List Candidate) :=
  if station.force_swap ∧ ¬ station.allow_swap then
    Except.error ("Station " ++ station.name ++ " requires swap but swap not allowed")
  else
    let current_soc_kwh := fromStep inp level
    let hotelling_power_kw := hotellingPowerKw inp
    -- OPTION 1: no operation (lines 758-786)
    let noneOpts : List Candidate :=
      if ¬ station.force_swap then
        let dwell_time_no_op := if station.mandatory_stop then station.docking_time_hr else 0
        let hotelling_energy_no_op :=
          if station.mandatory_stop then hotelling_power_kw * station.docking_time_hr else 0
        let soc_after_noop_kwh := max 0 (current_soc_kwh - hotelling_energy_no_op)
        let precharge_noop :=
          if station.background_charging_allowed ∧ 0 < dwell_time_no_op then
            bgAvailable station 0 * dwell_time_no_op * station.charging_efficiency
          else 0
        [{ level_after_operation := toStep inp soc_after_noop_kwh,
           operation_cost := 0, docking_time := dwell_time_no_op,
           swapped := false, charged := false, operation_type := "none",
           num_containers_swapped := 0, energy_charged_kwh := 0,
           hotelling_energy_kwh := hotelling_energy_no_op,
           precharge_energy_kwh := precharge_noop }]
      else []
    do
      -- OPTION 2: full/partial swap (lines 788-904)
      let swapOpts ←
        if station.allow_swap then
          let counts := candidateSwapCounts inp station current_soc_kwh (totalNumContainers inp)
          let pre_swap_time := if station.mandatory_stop then station.docking_time_hr
            else station.swap_operation_time_hr
          let precharge_energy :=
            if station.background_charging_allowed ∧ 0 < pre_swap_time then
              pre_swap_time * bgAvailable station 0 * station.charging_efficiency
            else 0
          let effective_available : Option ℤ :=
            match station.available_batteries with
            | none => none
            | some initial_charged =>
              let total_stock_val := station.total_batteries.getD initial_charged
              some (min total_stock_val
                (initial_charged + ⌊precharge_energy / inp.battery_container_capacity_kwh⌋))
          swapCandidateLoop inp station current_soc_kwh hotelling_power_kw
            precharge_energy effective_available counts
        else pure []
      -- OPTION 3: charging only (lines 906-965)
      let chargeOpts : List Candidate :=
        if station.charging_allowed ∧ 0 < station.charging_power_kw ∧ ¬ station.force_swap then
          (chargeTimeOptions station).filterMap
            (mkChargeCandidate inp station current_soc_kwh hotelling_power_kw)
        else []
      -- OPTION 4: hybrid swap + charge (lines 967-1091)
      let hybridOpts : List Candidate :=
        if station.allow_swap ∧ station.charging_allowed ∧ 0 < station.charging_power_kw then
          let hybrid_charge_times : List ℚ := [1/2, 1, 2, 3, 4]
          hybrid_charge_times.flatMap (fun charge_time =>
            let counts := candidateSwapCounts inp station current_soc_kwh (totalNumContainers inp)
            let effective_available := hybridEffectiveAvailable inp station
            counts.filterMap (fun containers_to_swap =>
              if effective_available.any (fun ea => decide (ea < containers_to_swap)) then none
              else mkHybridCandidate inp station hotelling_power_kw charge_time containers_to_swap))
        else []
      return noneOpts ++ swapOpts ++ chargeOpts ++ hybridOpts

/-!
## Python dict as an insertion-ordered association list

Python dicts preserve insertion order; updating an existing key keeps its
position.  `dictGet` models `d.get(k)`, `dictSet` models `d[k] = v`.
-/

def dictGet {α β : Type} [DecidableEq α] (d : List (α × β)) (k : α) : Option β :=
  (d.find? (fun p => decide (p.1 = k))).map (fun p => p.2)

def dictSet {α β : Type} [DecidableEq α] : List (α × β) → α → β → List (α × β)
  | [], k, v => [(k, v)]
  | (k', v') :: rest, k, v =>
    if k' = k then (k, v) :: rest else (k', v') :: dictSet rest k v

/-!
## Pre-run energy-balance check

The fail-fast block at the top of `FixedPathOptimizer.solve` (lines
429-463).
-/

/-- `total_segment_energy` (line 430): the energy of every option of every
segment. -/
def totalSegmentEnergy (inp : FixedPathInputs) : ℚ :=
  (inp.segments.map (fun seg => (seg.options.map (fun o => o.energy_kwh)).sum)).sum

/-- The station loop of the pre-check (lines 433-453): `none` models
`float('inf')` -- the loop `break`s at the first station with an unset
available-container count, opting out of the check. -/
def stationEnergyBound (inp : FixedPathInputs) : List Station → Option ℚ
  | [] => some 0
  | s :: rest =>
    match s.available_batteries with
    | none => none
    | some containers_available =>
      let precharge_time := if s.mandatory_stop then s.docking_time_hr
        else s.swap_operation_time_hr
      let precharge_possible : ℤ :=
        if s.charging_allowed ∧ 0 < s.charging_power_kw ∧ 0 < precharge_time then
          ⌊(s.charging_power_kw * precharge_time * s.charging_efficiency) /
            inp.battery_container_capacity_kwh⌋
        else 0
      let effective_containers :=
        match s.total_batteries with
        | some containers_total => min (containers_available + precharge_possible) containers_total
        | none => containers_available + precharge_possible
      (stationEnergyBound inp rest).map
        (fun e => (effective_containers : ℚ) * inp.battery_container_capacity_kwh + e)

/-- `required_total_energy` (line 431). -/
def requiredTotalEnergy (inp : FixedPathInputs) : ℚ :=
  totalSegmentEnergy inp + inp.final_soc_min_kwh

/-- The fail-fast condition (lines 456-463): true exactly when `solve`
raises the energy-balance error before any DP propagation. -/
def preCheckFails (inp : FixedPathInputs) : Bool :=
  match stationEnergyBound inp inp.stations with
  | none => false
  | some bound =>
    decide (inp.initial_soc_kwh + bound < requiredTotalEnergy inp - tol)

/-!
## DP state, transitions, steps

`_Transition` (lines 382-412), `StepResult` (lines 246-278),
`OptimisationResult` (lines 372-379).  A DP state key is `(soc_level,
inventory_tuple)`; a DP value is `(best_cost, best_time,
battery_source_idx)`.  The station-timeline event dicts of the Python
code become the `StationEvent` inductive.
-/

abbrev StateKey := ℤ × List ℤ

abbrev DPTable := List (StateKey × (ℚ × ℚ × ℕ))

structure Transition where
  prev_level : ℤ
  swapped : Bool
  charged : Bool
  operation_type : String
  num_containers_swapped : ℤ
  energy_charged_kwh : ℚ
  total_operation_cost : ℚ
  station_docking_time_hr : ℚ
  soc_after_operation_kwh : ℚ
  option_index : ℕ
  energy_kwh : ℚ
  travel_time_hr : ℚ
  energy_cost : ℚ
  extra_cost : ℚ
  hotelling_energy_kwh : ℚ
  prev_inventory : Option (List ℤ)
  precharge_energy_kwh : ℚ
deriving DecidableEq

abbrev PrevTable := List (StateKey × Transition)

/-- `_Transition.incremental_cost` (lines 403-405). -/
def Transition.incremental_cost (t : Transition) : ℚ :=
  t.total_operation_cost + t.energy_cost + t.extra_cost

/-- `_Transition.incremental_time` (lines 407-412). -/
def Transition.incremental_time (t : Transition) : ℚ :=
  t.station_docking_time_hr + t.travel_time_hr

inductive StationEvent where
  | arrival (time_hr : ℚ) (charged_before total_before : Option ℤ)
  | background_precharge (time_hr : ℚ) (added : ℤ)
  | precharge_candidate (time_hr : ℚ) (energy_kwh : ℚ) (added : ℤ)
  | precharge_during_stop (time_hr : ℚ) (added : ℤ)
deriving DecidableEq

structure StepResult where
  station_name : String
  swap_taken : Bool
  num_containers_swapped : ℤ
  charging_taken : Bool := false
  energy_charged_kwh : ℚ := 0
  operation_type : String := "none"
  arrival_time_hr : ℚ := 0
  departure_time_hr : ℚ := 0
  station_docking_time_hr : ℚ := 0
  soc_before_kwh : ℚ := 0
  soc_after_operation_kwh : ℚ := 0
  segment_label : String := ""
  energy_used_kwh : ℚ := 0
  travel_time_hr : ℚ := 0
  soc_after_segment_kwh : ℚ := 0
  incremental_cost : ℚ := 0
  cumulative_cost : ℚ := 0
  incremental_time_hr : ℚ := 0
  cumulative_time_hr : ℚ := 0
  hotelling_energy_kwh : ℚ := 0
  hotelling_power_kw : ℚ := 0
  station_charged_before : Option ℤ := none
  station_charged_after : Option ℤ := none
  station_total_before : Option ℤ := none
  station_total_after : Option ℤ := none
  containers_precharged : ℤ := 0
  containers_charged_during_stop : ℤ := 0
  precharge_energy_kwh : ℚ := 0
  station_events : List StationEvent := []
deriving DecidableEq

structure OptimisationResult where
  total_cost : ℚ
  total_time_hr : ℚ
  finish_time_hr : ℚ
  steps : List StepResult
  station_timelines : List (String × List StationEvent)
deriving DecidableEq

/-!
## Inventory encoding

`encode_inventory` / `decode_inventory`, defined inside `solve` (lines
480-507).  Layout: `[charged_0, lastq_0, charged_1, lastq_1, ...]`; the
last-visit sentinel for "never visited" is `-1`; an unset (unlimited)
charged count encodes as `0`.
-/

def encode_inventory (charged_arr last_visit_arr : List (Option ℤ)) : List ℤ :=
  (charged_arr.zip last_visit_arr).flatMap (fun p =>
    let count : ℤ := match p.1 with
      | some v => if v = -1 then 0 else v
      | none => 0
    [count, p.2.getD (-1)])

def decodePairs : List ℤ → List ℤ × List (Option ℤ)
  | c :: t :: rest =>
    let (cs, ts) := decodePairs rest
    (c :: cs, (if t = -1 then none else some t) :: ts)
  | _ => ([], [])

def decode_inventory (num_inventory_stations : ℕ) (tup : List ℤ) :
    Except String (List ℤ × List (Option ℤ)) :=
  if tup.length ≠ num_inventory_stations * 2 then
    Except.error "Inventory tuple length mismatch"
  else Except.ok (decodePairs tup)

/-- `unique_station_names` (lines 468-471): distinct names in first-seen
order. -/
def uniqueStationNames (stations : List Station) : List String :=
  stations.foldl (fun acc s => if s.name ∈ acc then acc else acc ++ [s.name]) []

/-- The per-state battery-state list (lines 548-562, counts mode):
`inv_list` and the unique names have equal length when this is called
(checked just before). -/
def buildBatteryStates (inp : FixedPathInputs) (inv_list : List ℤ)
    (names : List String) : List BatteryCountState :=
  (inv_list.zip names).map (fun p =>
    let st := inp.stations.find? (fun s => decide (s.name = p.2))
    let total_stock := st.bind (fun s => s.total_batteries)
    { capacity_per_battery_kwh := inp.battery_container_capacity_kwh,
      charged := p.1,
      total := total_stock.getD p.1,
      start_empty_soc := 2 / 10,
      partial_energy_kwh := 0 })

/-!
## DP forward pass

The main loop of `solve` (lines 533-720).  The Python loop mutates
`dp[idx+1]` and `prev[idx+1]` while iterating a snapshot of `dp[idx]`;
here the two target tables are threaded through folds.
-/

/-- `bg_power_candidate` in the DP loop (lines 591-604): the effective
background power used for between-visit precharge. -/
def dpBgPowerCandidate (station : Station) : ℚ :=
  if station.background_charging_allowed then
    if 0 < station.background_charging_power_kw then
      if 0 < station.total_grid_power_kw then
        min station.background_charging_power_kw station.total_grid_power_kw
      else station.background_charging_power_kw
    else if 0 < station.total_grid_power_kw then station.total_grid_power_kw
    else if 0 < station.charging_power_kw then station.charging_power_kw
    else 0
  else 0

/-- The dominance-gated table write (lines 696-720): read the current
entry for the key (`None` modelled by the absent-`Option`), and replace
both the value and the back-pointer when `_improves` holds. -/
def dpInsert (key : StateKey) (val : ℚ × ℚ × ℕ) (tr : Transition)
    (acc : DPTable × PrevTable) : DPTable × PrevTable :=
  if improves val.1 val.2.1 ((dictGet acc.1 key).map (fun v => (v.1, v.2.1))) then
    (dictSet acc.1 key val, dictSet acc.2 key tr)
  else acc

/-- The committing tail of the per-option DP transition (lines 656-720):
cost/time accumulation, the swap-availability guard, the inventory update
and the dominance-gated insertion into the next tables, for an already
feasibility-checked `new_level`. -/
def processOptionCommit (inp : FixedPathInputs) (idx : ℕ) (level : ℤ)
    (inv_enc : List ℤ) (base_cost base_time arrival_time_hr : ℚ)
    (battery_source_idx : ℕ) (battery_states : List BatteryCountState)
    (last_visit_list : List (Option ℤ)) (inv_idx : ℕ)
    (bs_clone : BatteryCountState) (charged_effective : ℤ) (cand : Candidate)
    (option_idx : ℕ) (option : SegmentOption) (new_level : ℤ)
    (acc : DPTable × PrevTable) : DPTable × PrevTable :=
  let new_battery_source_idx := if cand.swapped then idx else battery_source_idx
  let travel_time := option.travel_time_hr
  let energy_cost : ℚ := 0
  let new_cost := base_cost + cand.operation_cost + option.extra_cost + energy_cost
  let new_time := base_time + cand.docking_time + travel_time
  -- `charged_effective` is always an int in the source, so the
  -- `is not None` half of the guard at line 664 is always true.
  if cand.swapped ∧ charged_effective < cand.num_containers_swapped then acc
  else
    let new_battery_states1 := battery_states.set inv_idx bs_clone
    let departure_time_hr := arrival_time_hr + cand.docking_time
    let new_last_visit := last_visit_list.set inv_idx
      (some (pyRound (departure_time_hr / inp.time_quant_hr)))
    let new_battery_states :=
      if cand.swapped ∧ 0 < cand.num_containers_swapped then
        match new_battery_states1.get? inv_idx with
        | some station_state_for_swap =>
          let removed := station_state_for_swap.remove_n_highest cand.num_containers_swapped
          let returned := removed.1.add_depleted_batteries cand.num_containers_swapped (2 / 10)
          new_battery_states1.set inv_idx returned
        | none => new_battery_states1
      else new_battery_states1
    let enc_buckets := new_battery_states.map (fun bs => bs.encode)
    let inv_enc_next := encode_inventory (enc_buckets.map some) new_last_visit
    let key_next : StateKey := (new_level, inv_enc_next)
    dpInsert key_next (new_cost, new_time, new_battery_source_idx)
      { prev_level := level,
        swapped := cand.swapped,
        charged := cand.charged,
        operation_type := cand.operation_type,
        num_containers_swapped := cand.num_containers_swapped,
        energy_charged_kwh := cand.energy_charged_kwh,
        total_operation_cost := cand.operation_cost,
        station_docking_time_hr := cand.docking_time,
        soc_after_operation_kwh := fromStep inp cand.level_after_operation,
        option_index := option_idx,
        energy_kwh := option.energy_kwh,
        travel_time_hr := travel_time,
        energy_cost := energy_cost,
        extra_cost := option.extra_cost,
        hotelling_energy_kwh := cand.hotelling_energy_kwh,
        prev_inventory := some inv_enc,
        precharge_energy_kwh := cand.precharge_energy_kwh } acc

/-- The per-option body of the DP transition (lines 638-720): the four
feasibility guards (lines 639-655), then the committing tail. -/
def processOption (inp : FixedPathInputs) (idx : ℕ) (level : ℤ)
    (inv_enc : List ℤ) (base_cost base_time arrival_time_hr : ℚ)
    (battery_source_idx : ℕ) (battery_states : List BatteryCountState)
    (last_visit_list : List (Option ℤ)) (inv_idx : ℕ)
    (bs_clone : BatteryCountState) (charged_effective : ℤ) (cand : Candidate)
    (acc : DPTable × PrevTable) (option_idx : ℕ) (option : SegmentOption) :
    DPTable × PrevTable :=
  let energy_steps := energyToSteps inp option.energy_kwh
  if cand.level_after_operation < energy_steps then acc
  else
    let new_level := cand.level_after_operation - energy_steps
    if new_level < minOperatingLevel inp then acc
    else
      let new_soc_after_travel := fromStep inp new_level
      if new_soc_after_travel < inp.min_soc_kwh then acc
      else if idx + 1 = inp.stations.length - 1 ∧
          new_soc_after_travel < inp.final_soc_min_kwh then acc
      else
        processOptionCommit inp idx level inv_enc base_cost base_time
          arrival_time_hr battery_source_idx battery_states last_visit_list
          inv_idx bs_clone charged_effective cand option_idx option new_level acc

/-- The per-candidate body of the DP transition (lines 565-720): clone
this station's inventory state, apply between-visit background precharge
and the candidate's own dwell precharge, then try every travel option. -/
def processCandidate (inp : FixedPathInputs) (unique_station_names : List String)
    (idx : ℕ) (station : Station) (segment : Segment) (level : ℤ)
    (inv_enc : List ℤ) (base_cost base_time arrival_time_hr : ℚ)
    (battery_source_idx : ℕ) (battery_states : List BatteryCountState)
    (last_visit_list : List (Option ℤ)) (acc : DPTable × PrevTable)
    (cand : Candidate) : Except String (DPTable × PrevTable) :=
  match unique_station_names.findIdx? (fun n => decide (n = station.name)) with
  | none => Except.error "Inventory index out of range"
  | some inv_idx =>
    if inv_idx < battery_states.length then
      match battery_states.get? inv_idx with
      | none => Except.error "Inventory index out of range"
      | some charged_state =>
        -- `last_visit_list` has the unique-station length whenever
        -- decoding succeeded, so the default branch is unreachable.
        let last_visit_q : Option ℤ := (last_visit_list.get? inv_idx).getD none
        let bg_power_candidate := dpBgPowerCandidate station
        let time_since_last_visit : ℚ :=
          match last_visit_q with
          | some lq => max 0 (arrival_time_hr - (lq : ℚ) * inp.time_quant_hr)
          | none => 0
        let total_stock := station.total_batteries
        let bs_clone1 :=
          if 0 < bg_power_candidate ∧ last_visit_q.isSome ∧ 0 < time_since_last_visit then
            charged_state.add_energy (bg_power_candidate * time_since_last_visit)
              station.charging_efficiency station.min_swap_soc
          else charged_state
        let bs_clone :=
          if 0 < cand.precharge_energy_kwh then
            bs_clone1.add_energy cand.precharge_energy_kwh
              station.charging_efficiency station.min_swap_soc
          else bs_clone1
        let charged_effective0 := bs_clone.get_available_for_swap
        let charged_effective :=
          match total_stock with
          | some t => min charged_effective0 t
          | none => charged_effective0
        Except.ok (segment.options.enum.foldl
          (fun a p => processOption inp idx level inv_enc base_cost base_time
            arrival_time_hr battery_source_idx battery_states last_visit_list
            inv_idx bs_clone charged_effective cand a p.1 p.2)
          acc)
    else Except.error "Inventory index out of range"

/-- The per-state body of the DP loop (lines 538-720): decode the
inventory, rebuild the per-station battery states and process every
candidate operation. -/
def processStateEntry (inp : FixedPathInputs) (unique_station_names : List String)
    (idx : ℕ) (station : Station) (segment : Segment)
    (acc : DPTable × PrevTable) (entry : StateKey × (ℚ × ℚ × ℕ)) :
    Except String (DPTable × PrevTable) := do
  let level := entry.1.1
  let inv_enc := entry.1.2
  let base_cost := entry.2.1
  let base_time := entry.2.2.1
  let battery_source_idx := entry.2.2.2
  let arrival_time_hr := inp.start_time_hr + base_time
  let decoded ← decode_inventory unique_station_names.length inv_enc
  let inv_list := decoded.1
  let last_visit_list := decoded.2
  if inv_list.length ≠ unique_station_names.length then
    Except.error "Decoded inventory length mismatch"
  else do
    let battery_states := buildBatteryStates inp inv_list unique_station_names
    let cands ← candidate_levels inp station level arrival_time_hr
    cands.foldlM
      (processCandidate inp unique_station_names idx station segment level
        inv_enc base_cost base_time arrival_time_hr battery_source_idx
        battery_states last_visit_list)
      acc

/-- The outer DP loop (lines 533-720), one iteration per segment index:
reads a snapshot of `dp[idx]`, writes `dp[idx+1]` and `prev[idx+1]`. -/
def dpLoopAux (inp : FixedPathInputs) (unique_station_names : List String) :
    List DPTable → List PrevTable → List ℕ →
    Except String (List DPTable × List PrevTable)
  | dp, prev, [] => Except.ok (dp, prev)
  | dp, prev, idx :: rest => do
    let station ← match inp.stations.get? idx with
      | some s => Except.ok s
      | none => Except.error "station index out of range"
    let segment ← match inp.segments.get? idx with
      | some s => Except.ok s
      | none => Except.error "segment index out of range"
    let next ← (dp.getD idx []).foldlM
      (processStateEntry inp unique_station_names idx station segment)
      (dp.getD (idx + 1) [], prev.getD (idx + 1) [])
    dpLoopAux inp unique_station_names
      (dp.set (idx + 1) next.1) (prev.set (idx + 1) next.2) rest

/-!
## Terminal selection and reconstruction

`_select_terminal_state` (lines 1097-1127) and the backward walk of
`_reconstruct` (lines 1138-1208).
-/

/-- `_select_terminal_state`: the lexicographically best entry at the
final station among those meeting the final SoC level.  With rational
costs the `math.isfinite` skip of the source is vacuous. -/
def select_terminal_state (inp : FixedPathInputs) (dp : List DPTable) :
    Except String (ℤ × List ℤ × ℚ × ℚ) :=
  let final_idx := inp.stations.length - 1
  let min_level := toStep inp inp.final_soc_min_kwh
  let best := (dp.getD final_idx []).foldl
    (fun (best : Option (ℤ × List ℤ × ℚ × ℚ)) entry =>
      if entry.1.1 < min_level then best
      else
        let cost := entry.2.1
        let time := entry.2.2.1
        if improves cost time (best.map (fun b => (b.2.2.1, b.2.2.2.2))) then
          some (entry.1.1, entry.1.2, cost, time)
        else best)
    none
  match best with
  | none => Except.error "No feasible solution found for final SoC requirement"
  | some b => Except.ok b

/-- The step record the backward walk appends for one transition (lines
1171-1203). -/
def mkReconStep (inp : FixedPathInputs) (station : Station)
    (option : SegmentOption) (transition : Transition) (current_level : ℤ)
    (arrival_time_hr cumulative_cost cumulative_time : ℚ) : StepResult :=
  let departure_time_hr := arrival_time_hr + transition.station_docking_time_hr
  { station_name := station.name,
    swap_taken := transition.swapped,
    num_containers_swapped := transition.num_containers_swapped,
    charging_taken := transition.charged,
    energy_charged_kwh := transition.energy_charged_kwh,
    operation_type := transition.operation_type,
    arrival_time_hr := arrival_time_hr,
    departure_time_hr := departure_time_hr,
    station_docking_time_hr := transition.station_docking_time_hr,
    soc_before_kwh := fromStep inp transition.prev_level,
    soc_after_operation_kwh := transition.soc_after_operation_kwh,
    segment_label := option.label,
    energy_used_kwh := transition.energy_kwh,
    travel_time_hr := transition.travel_time_hr,
    soc_after_segment_kwh := fromStep inp current_level,
    incremental_cost := transition.incremental_cost,
    cumulative_cost := cumulative_cost,
    incremental_time_hr := transition.incremental_time,
    cumulative_time_hr := cumulative_time,
    hotelling_energy_kwh := transition.hotelling_energy_kwh,
    hotelling_power_kw := hotellingPowerKw inp,
    precharge_energy_kwh := transition.precharge_energy_kwh,
    station_charged_before := none,
    station_charged_after := none,
    station_total_before := none,
    station_total_after := none,
    containers_precharged := 0,
    containers_charged_during_stop := 0 }

/-- The backward walk of `_reconstruct` (lines 1138-1207).  The recursion
index is offset by one: the body for Python index `idx` runs at pattern
`i + 1` with `i = idx - 1`, so `stations[idx - 1]` is `stations.get? i`.
Steps accumulate in walk order (latest first) as the Python list does
before its final `reverse`. -/
def reconstructLoop (inp : FixedPathInputs) (prevT : List PrevTable)
    (dp : List DPTable) :
    ℕ → StateKey → ℚ → ℚ → List StepResult → Except String (List StepResult)
  | 0, _, _, _, steps => Except.ok steps
  | i + 1, current_key, cumulative_cost, cumulative_time, steps => do
    let transition ← match dictGet (prevT.getD (i + 1) []) current_key with
      | some t => Except.ok t
      | none => Except.error "Missing transition during reconstruction"
    let prev_inv ← match transition.prev_inventory with
      | some p => Except.ok p
      | none => Except.error "Missing prev_inventory during reconstruction"
    let prev_key : StateKey := (transition.prev_level, prev_inv)
    let current_level := current_key.1
    let station ← match inp.stations.get? i with
      | some s => Except.ok s
      | none => Except.error "station index out of range"
    let segment ← match inp.segments.get? i with
      | some s => Except.ok s
      | none => Except.error "segment index out of range"
    let option ← match segment.options.get? transition.option_index with
      | some o => Except.ok o
      | none => Except.error "option index out of range"
    let step_cost := transition.incremental_cost
    let step_time := transition.incremental_time
    let arrival_elapsed ← match dictGet (dp.getD i []) prev_key with
      | some v => Except.ok v.2.1
      | none => Except.error "missing dp entry during reconstruction"
    let step : StepResult := mkReconStep inp station option transition
      current_level (inp.start_time_hr + arrival_elapsed) cumulative_cost
      cumulative_time
    reconstructLoop inp prevT dp i prev_key (cumulative_cost - step_cost)
      (cumulative_time - step_time) (steps ++ [step])

/-!
## Forward inventory simulation

The second half of `_reconstruct` (lines 1210-1401): replays the
reconstructed steps against fresh per-port inventory states to fill in
the station-inventory fields and the station timelines.
-/

/-- The per-station simulation state threaded through the loop. -/
structure SimState where
  battery_states_map : List (String × BatteryCountState)
  last_departure_map : List (String × Option ℚ)
  enriched_steps : List StepResult
  station_timelines : List (String × List StationEvent)
deriving DecidableEq

/-- Initial inventory map (lines 1216-1219). -/
def initBatteryStatesMap (inp : FixedPathInputs) : List (String × BatteryCountState) :=
  inp.stations.foldl (fun m s =>
    let charged := s.available_batteries.getD (s.total_batteries.getD 0)
    let total := s.total_batteries.getD charged
    dictSet m s.name
      { capacity_per_battery_kwh := inp.battery_container_capacity_kwh,
        charged := charged, total := total,
        start_empty_soc := 2 / 10, partial_energy_kwh := 0 }) []

/-- Initial last-departure map (lines 1220-1223): `None` everywhere, then
the origin station set to the start time. -/
def initLastDepartureMap (inp : FixedPathInputs) : List (String × Option ℚ) :=
  let m := inp.stations.foldl (fun m s => dictSet m s.name (none : Option ℚ)) []
  match inp.stations.head? with
  | some s0 => dictSet m s0.name (some inp.start_time_hr)
  | none => m

/-- `bg_power_candidate` in the forward simulation (lines 1256-1262) --
note this differs from the DP loop's version: no grid-power fallback. -/
def simBgPowerCandidate (station : Station) : ℚ :=
  if station.background_charging_allowed then
    if 0 < station.background_charging_power_kw then station.background_charging_power_kw
    else if 0 < station.charging_power_kw then station.charging_power_kw
    else 0
  else 0

/-- The body of the simulation loop for one reconstructed step (lines
1230-1384). -/
def simulateStep (inp : FixedPathInputs) (sim : SimState) (st : StepResult) : SimState :=
  let s_name := st.station_name
  let station_obj := inp.stations.find? (fun x => decide (x.name = s_name))
  match station_obj with
  | none => { sim with enriched_steps := sim.enriched_steps ++ [st] }
  | some so =>
    let min_swap := so.min_swap_soc
    let charged_before0 : Option ℤ :=
      (dictGet sim.battery_states_map s_name).map (fun bs => bs.get_available_for_swap)
    let total_before : Option ℤ :=
      (dictGet sim.battery_states_map s_name).map (fun bs => bs.get_total_batteries)
    let station_charging_efficiency := so.charging_efficiency
    -- background precharge since the recorded last departure (lines 1253-1270)
    let prev_dep : Option ℚ := (dictGet sim.last_departure_map s_name).getD none
    let bg_power_candidate := simBgPowerCandidate so
    let bmapBg :=
      match prev_dep, dictGet sim.battery_states_map s_name with
      | some pd, some bs =>
        if 0 < bg_power_candidate then
          let time_since_last_visit := max 0 (st.arrival_time_hr - pd)
          let energy_bg_grid := bg_power_candidate * time_since_last_visit
          let bs' := bs.add_energy energy_bg_grid station_charging_efficiency min_swap
          (dictSet sim.battery_states_map s_name bs',
           max 0 (bs'.get_available_for_swap - bs.get_available_for_swap))
        else (sim.battery_states_map, (0 : ℤ))
      | _, _ => (sim.battery_states_map, (0 : ℤ))
    let bmap1 := bmapBg.1
    let background_precharge := bmapBg.2
    let events0 : List StationEvent :=
      [StationEvent.arrival st.arrival_time_hr charged_before0 total_before]
    let events1 := events0 ++
      (if 0 < background_precharge then
        [StationEvent.background_precharge st.arrival_time_hr background_precharge]
      else [])
    -- candidate precharge energy planned by the DP (lines 1287-1302)
    let candidate_precharge_energy_kwh := st.precharge_energy_kwh
    let bmapCand :=
      match dictGet bmap1 s_name with
      | some bs =>
        if candidate_precharge_energy_kwh ≠ 0 then
          let bs' := bs.add_energy candidate_precharge_energy_kwh
            station_charging_efficiency min_swap
          (dictSet bmap1 s_name bs',
           max 0 (bs'.get_available_for_swap - bs.get_available_for_swap))
        else (bmap1, (0 : ℤ))
      | none => (bmap1, (0 : ℤ))
    let bmap2 := bmapCand.1
    let candidate_precharge_added := bmapCand.2
    let events2 := events1 ++
      (if 0 < candidate_precharge_added then
        [StationEvent.precharge_candidate (st.arrival_time_hr + 2 / 10000)
          candidate_precharge_energy_kwh candidate_precharge_added]
      else [])
    -- infra precharge during the dwell (lines 1304-1341)
    let dock_time := st.station_docking_time_hr
    let precharge_possible : ℤ :=
      if so.charging_allowed ∧ 0 < so.charging_power_kw ∧ 0 < dock_time then
        ⌊(dock_time * so.charging_power_kw * station_charging_efficiency) /
          inp.battery_container_capacity_kwh⌋
      else 0
    let spares : Option ℤ :=
      match total_before, charged_before0 with
      | some t, some c => some (max 0 (t - c))
      | some t, none => some t
      | none, _ => none
    let infraStep :
        List (String × BatteryCountState) × ℤ × Option ℤ :=
      if 0 < precharge_possible ∨ 0 < background_precharge ∨
          0 < candidate_precharge_added then
        let precharge_from_infrastructure := precharge_possible + background_precharge
        let infra_precharge_applied :=
          match spares with
          | none => precharge_from_infrastructure
          | some sp => min precharge_from_infrastructure
              (max 0 (sp - candidate_precharge_added))
        let actual_precharge := candidate_precharge_added + infra_precharge_applied
        match dictGet bmap2 s_name with
        | some bs =>
          if 0 < infra_precharge_applied then
            let bs' := bs.add_energy
              ((infra_precharge_applied : ℚ) * inp.battery_container_capacity_kwh)
              station_charging_efficiency min_swap
            (dictSet bmap2 s_name bs', actual_precharge,
             some bs'.get_available_for_swap)
          else (bmap2, actual_precharge, charged_before0)
        | none => (bmap2, actual_precharge, charged_before0)
      else (bmap2, 0, charged_before0)
    let bmap3 := infraStep.1
    let containers_precharged := infraStep.2.1
    let charged_before := infraStep.2.2
    let events3 := events2 ++
      (if (0 < precharge_possible ∨ 0 < background_precharge ∨
          0 < candidate_precharge_added) ∧ 0 < containers_precharged then
        [StationEvent.precharge_during_stop (st.arrival_time_hr + 1 / 10000)
          containers_precharged]
      else [])
    -- post-stop snapshot (lines 1343-1348)
    let charged_after :=
      match dictGet bmap3 s_name with
      | some bs => some bs.get_available_for_swap
      | none => charged_before
    let total_after :=
      match dictGet bmap3 s_name with
      | some bs => some bs.get_total_batteries
      | none => total_before
    let new_step : StepResult :=
      { st with
        station_charged_before := charged_before,
        station_charged_after := charged_after,
        station_total_before := total_before,
        station_total_after := total_after,
        containers_precharged := containers_precharged,
        containers_charged_during_stop := 0,
        precharge_energy_kwh := st.precharge_energy_kwh,
        station_events := events3 }
    { battery_states_map := bmap3,
      -- the source updates `last_departure_map` only after the loop
      -- (lines 1386-1387 sit outside the `for st in steps` body), so the
      -- map is deliberately left unchanged here
      last_departure_map := sim.last_departure_map,
      enriched_steps := sim.enriched_steps ++ [new_step],
      station_timelines := dictSet sim.station_timelines s_name
        ((dictGet sim.station_timelines s_name).getD [] ++ events3) }

/-- The forward simulation (lines 1210-1401): initial maps, the step
loop, the post-loop last-departure write (dead: the map is not read
afterwards), and the final-station arrival event. -/
def simulateInventory (inp : FixedPathInputs) (steps : List StepResult)
    (best_time : ℚ) : List StepResult × List (String × List StationEvent) :=
  let sim0 : SimState :=
    { battery_states_map := initBatteryStatesMap inp,
      last_departure_map := initLastDepartureMap inp,
      enriched_steps := [],
      station_timelines := inp.stations.foldl
        (fun m s => dictSet m s.name ([] : List StationEvent)) [] }
  let simF := steps.foldl (simulateStep inp) sim0
  -- lines 1386-1387: executed once, after the loop, with the loop
  -- variables of the final iteration; the map is never read again.
  let simG :=
    match steps.getLast? with
    | some stLast =>
      let m' := dictSet simF.last_departure_map stLast.station_name
        (some stLast.departure_time_hr)
      { simF with last_departure_map := m' }
    | none => simF
  let timelinesF :=
    match inp.stations.getLast? with
    | some final_station =>
      match dictGet simG.station_timelines final_station.name,
          dictGet simG.battery_states_map final_station.name with
      | some evs, some bs =>
        dictSet simG.station_timelines final_station.name
          (evs ++ [StationEvent.arrival (inp.start_time_hr + best_time)
            (some bs.get_available_for_swap) (some bs.get_total_batteries)])
      | _, _ => simG.station_timelines
    | none => simG.station_timelines
  (simG.enriched_steps, timelinesF)

/-!
## The solver entry point

`FixedPathOptimizer.solve` (lines 427-731): pre-check, DP forward pass,
terminal selection, reconstruction, forward simulation.
-/

def solve (inp : FixedPathInputs) : Except String OptimisationResult := do
  if preCheckFails inp then
    Except.error "No feasible solution: Total energy below required for journey"
  else do
    let unique_station_names := uniqueStationNames inp.stations
    let init_charged : List (Option ℤ) := unique_station_names.map (fun name =>
      (inp.stations.find? (fun st => decide (st.name = name))).bind
        (fun s => s.available_batteries))
    let init_last_visit_quant : List (Option ℤ) := unique_station_names.map (fun name =>
      if inp.stations.head?.elim false (fun s0 => s0.name = name) then
        some (pyRound (inp.start_time_hr / inp.time_quant_hr))
      else none)
    let init_inv_enc := encode_inventory init_charged init_last_visit_quant
    let num_inventory_stations := unique_station_names.length
    if init_inv_enc.length ≠ num_inventory_stations * 2 then
      Except.error "Initial inventory encoding length mismatch"
    else do
      let start_level := toStep inp inp.initial_soc_kwh
      let dpInit : List DPTable :=
        (inp.stations.map (fun _ => ([] : DPTable))).set 0
          [((start_level, init_inv_enc), ((0 : ℚ), (0 : ℚ), (0 : ℕ)))]
      let prevInit : List PrevTable := inp.stations.map (fun _ => [])
      let tables ← dpLoopAux inp unique_station_names dpInit prevInit
        (List.range inp.segments.length)
      let best ← select_terminal_state inp tables.1
      let steps_rev ← reconstructLoop inp tables.2 tables.1
        (inp.stations.length - 1) (best.1, best.2.1) best.2.2.1 best.2.2.2 []
      let steps := steps_rev.reverse
      let sim := simulateInventory inp steps best.2.2.2
      Except.ok
        { total_cost := best.2.2.1,
          total_time_hr := best.2.2.2,
          finish_time_hr := inp.start_time_hr + best.2.2.2,
          steps := sim.1,
          station_timelines := sim.2 }

/-!
## The pre-check formula as the claim states it

The per-station term of the energy-balance pre-check in the form the
specification writes it: `min(total_stock, ready + floor(per-dwell
precharge / per_container)) * per_container`, an unset total stock
imposing no cap.  Compared below against the loop the source runs.
-/

def specStationEnergyTerm (inp : FixedPathInputs) (s : Station) : ℚ :=
  let ready := s.available_batteries.getD 0
  let per_dwell_time := if s.mandatory_stop then s.docking_time_hr
    else s.swap_operation_time_hr
  let precharge : ℤ :=
    if s.charging_allowed ∧ 0 < s.charging_power_kw ∧ 0 < per_dwell_time then
      ⌊(s.charging_power_kw * per_dwell_time * s.charging_efficiency) /
        inp.battery_container_capacity_kwh⌋
    else 0
  let effective :=
    match s.total_batteries with
    | some total_stock => min (ready + precharge) total_stock
    | none => ready + precharge
  (effective : ℚ) * inp.battery_container_capacity_kwh

/-!
## Concrete instances used by the claim theorems
-/

/-- Origin station of the C1 instance: only shore charging at 1 kW. -/
def stA : Station :=
  { name := "A", allow_swap := false, charging_allowed := true,
    charging_power_kw := 1, background_charging_allowed := false }

/-- Destination station of the C1 instance. -/
def stB : Station :=
  { name := "B", allow_swap := false, background_charging_allowed := false }

/-- The single leg of the C1 instance: zero energy, one hour. -/
def segAB : Segment :=
  { start := "A", endName := "B",
    options := [{ label := "AB", travel_time_hr := 1, energy_kwh := 0, extra_cost := 0 }] }

/-- The C1 instance: minimum operating SoC 0.4 kWh with a 1 kWh SoC
quantum, initial SoC exactly at the minimum.  Quantization rounds the
initial level down to 0, below the minimum operating SoC. -/
def exInpC1 : FixedPathInputs :=
  { stations := [stA, stB], segments := [segAB],
    battery_capacity_kwh := 10, battery_container_capacity_kwh := 5,
    initial_soc_kwh := 2/5, final_soc_min_kwh := 2/5,
    energy_cost_per_kwh := 1/4, min_soc_kwh := 2/5, soc_step_kwh := 1 }

/-- Fallback result used only to name the successful result of a concrete
solve. -/
def dummyResult : OptimisationResult :=
  { total_cost := 0, total_time_hr := 0, finish_time_hr := 0,
    steps := [], station_timelines := [] }

/-- The result `solve` returns on the C1 instance. -/
def rC1 : OptimisationResult :=
  (solve exInpC1).toOption.getD dummyResult

/-- The C4 station: partial swap and 500 kW charging both allowed. -/
def stC4 : Station :=
  { name := "P", allow_swap := true, charging_allowed := true,
    charging_power_kw := 500, partial_swap_allowed := true,
    available_batteries := some 4, total_batteries := some 4 }

/-- The C4 instance: a 12000 kWh vessel with 3000 kWh containers. -/
def inpC4 : FixedPathInputs :=
  { stations := [stC4], segments := [],
    battery_capacity_kwh := 12000, battery_container_capacity_kwh := 3000,
    initial_soc_kwh := 12000, final_soc_min_kwh := 0,
    energy_cost_per_kwh := 1/4 }

/-- C5 route stations: B is revisited and relies on background charging
(2000 kW) to restore its containers between visits. -/
def stA5 : Station := { name := "A", background_charging_allowed := false }

def stB5 : Station :=
  { name := "B", allow_swap := true, available_batteries := some 0,
    total_batteries := some 4, background_charging_power_kw := 2000,
    background_charging_allowed := true, charging_allowed := false }

def stC5 : Station := { name := "C", background_charging_allowed := false }

def mkLeg (a b : String) : Segment :=
  { start := a, endName := b,
    options := [{ label := a ++ "-" ++ b, travel_time_hr := 8, energy_kwh := 0,
                  extra_cost := 0 }] }

/-- The C5 instance: route A, B, C, B. -/
def inpC5 : FixedPathInputs :=
  { stations := [stA5, stB5, stC5, stB5],
    segments := [mkLeg "A" "B", mkLeg "B" "C", mkLeg "C" "B"],
    battery_capacity_kwh := 12000, battery_container_capacity_kwh := 3000,
    initial_soc_kwh := 12000, final_soc_min_kwh := 0,
    energy_cost_per_kwh := 1/4 }

/-- A reconstructed trajectory along A, B, C, B: the first visit to B
departs at 8.5 h, the second arrives at 40 h (31.5 h later). -/
def stepsC5 : List StepResult :=
  [{ station_name := "B", swap_taken := true, num_containers_swapped := 4,
     arrival_time_hr := 8, departure_time_hr := 17/2, station_docking_time_hr := 1/2 },
   { station_name := "C", swap_taken := false, num_containers_swapped := 0,
     arrival_time_hr := 33/2, departure_time_hr := 33/2 },
   { station_name := "B", swap_taken := false, num_containers_swapped := 0,
     arrival_time_hr := 40, departure_time_hr := 40 }]

/-- The C6 counterexample station: non-mandatory, swap and charge both
disallowed, but `force_swap` set. -/
def stC6 : Station :=
  { name := "P", mandatory_stop := false, allow_swap := false,
    charging_allowed := false, force_swap := true }

/-- A pass-through station (C6 amended, concrete witness). -/
def stC6ok : Station :=
  { name := "Q", mandatory_stop := false, allow_swap := false,
    charging_allowed := false }

/-- The C9 station: available count above total count. -/
def stC9 : Station :=
  { name := "B", available_batteries := some 5, total_batteries := some 3 }

/-- The C9 instance. -/
def inpC9 : FixedPathInputs :=
  { stations := [stC9], segments := [],
    battery_capacity_kwh := 10, battery_container_capacity_kwh := 5,
    initial_soc_kwh := 5, final_soc_min_kwh := 0, energy_cost_per_kwh := 1/4 }

/-- C3 witness stations: zero stock, no charging. -/
def stC3a : Station :=
  { name := "A", available_batteries := some 0, total_batteries := some 0,
    charging_allowed := false }

def stC3b : Station :=
  { name := "B", available_batteries := some 0, total_batteries := some 0,
    charging_allowed := false }

def segC3 : Segment :=
  { start := "A", endName := "B",
    options := [{ label := "AB", travel_time_hr := 8, energy_kwh := 100,
                  extra_cost := 0 }] }

/-- The C3 witness instance: 100 kWh of leg energy against 10 kWh on
board and no replenishment. -/
def inpC3 : FixedPathInputs :=
  { stations := [stC3a, stC3b], segments := [segC3],
    battery_capacity_kwh := 200, battery_container_capacity_kwh := 50,
    initial_soc_kwh := 10, final_soc_min_kwh := 0, energy_cost_per_kwh := 1/4 }

/-!
## Proof scaffolding

Predicates used by the invariant proofs below; they define nothing about
the program, only name properties of its DP tables and steps.
-/

/-- The SoC guard the DP transition enforces before storing a state at
table `j`: the post-travel SoC meets the minimum operating SoC, and at
the terminal table also the final-SoC requirement (lines 643-655). -/
def LevelSafe (inp : FixedPathInputs) (j : ℕ) (key : StateKey) : Prop :=
  inp.min_soc_kwh ≤ fromStep inp key.1 ∧
  (j = inp.stations.length - 1 → inp.final_soc_min_kwh ≤ fromStep inp key.1)

/-- Every entry of a DP table is level-safe. -/
def TableSafe (inp : FixedPathInputs) (j : ℕ) (tbl : DPTable) : Prop :=
  ∀ e ∈ tbl, LevelSafe inp j e.1

/-- Every non-initial DP table is level-safe. -/
def TablesSafe (inp : FixedPathInputs) (dp : List DPTable) : Prop :=
  ∀ j, 1 ≤ j → TableSafe inp j (dp.getD j [])

/-- The SoC fields of a step that the forward inventory simulation copies
verbatim. -/
def stepSocProj (s : StepResult) : ℚ × ℚ :=
  (s.soc_before_kwh, s.soc_after_segment_kwh)

end FixedPathDP

namespace FixedPathDP

lemma mem_dictSet {α β : Type} [DecidableEq α] (d : List (α × β)) (k : α) (v : β) :
    ∀ e ∈ dictSet d k v, e ∈ d ∨ e = (k, v) := by
  induction d with
  | nil =>
    intro e he
    simp only [dictSet, List.mem_singleton] at he
    exact Or.inr he
  | cons p rest ih =>
    intro e he
    obtain ⟨k', v'⟩ := p
    simp only [dictSet] at he
    by_cases h : k' = k
    · rw [if_pos h] at he
      rcases List.mem_cons.mp he with h1 | h1
      · exact Or.inr h1
      · exact Or.inl (List.mem_cons_of_mem _ h1)
    · rw [if_neg h] at he
      rcases List.mem_cons.mp he with h1 | h1
      · exact Or.inl (h1 ▸ List.mem_cons_self _ _)
      · rcases ih e h1 with h2 | h2
        · exact Or.inl (List.mem_cons_of_mem _ h2)
        · exact Or.inr h2

lemma dictGet_mem {α β : Type} [DecidableEq α] (d : List (α × β)) (k : α) (v : β)
    (h : dictGet d k = some v) : (k, v) ∈ d := by
  unfold dictGet at h
  obtain ⟨p, hp, hv⟩ := Option.map_eq_some'.mp h
  have hmem := List.mem_of_find?_eq_some hp
  have hpred := List.find?_some hp
  have hk : p.1 = k := of_decide_eq_true hpred
  have : p = (k, v) := by
    obtain ⟨p1, p2⟩ := p
    simp only at hk hv
    rw [hk, hv]
  exact this ▸ hmem

lemma foldl_preserve {α β : Type} {Q : α → Prop} {f : α → β → α}
    (hf : ∀ a b, Q a → Q (f a b)) :
    ∀ (l : List β) (a : α), Q a → Q (l.foldl f a) := by
  intro l
  induction l with
  | nil => intro a ha; exact ha
  | cons x xs ih => intro a ha; exact ih (f a x) (hf a x ha)

lemma foldlM_preserve {ε α β : Type} {Q : α → Prop} {f : α → β → Except ε α}
    (hf : ∀ a b a', Q a → f a b = Except.ok a' → Q a') :
    ∀ (l : List β) (a a' : α), Q a → List.foldlM f a l = Except.ok a' → Q a' := by
  intro l
  induction l with
  | nil =>
    intro a a' ha h
    simp only [List.foldlM_nil, pure, Except.pure] at h
    injection h with h
    exact h ▸ ha
  | cons x xs ih =>
    intro a a' ha h
    rw [List.foldlM_cons] at h
    cases hfa : f a x with
    | error e => rw [hfa] at h; simp [bind, Except.bind] at h
    | ok a1 =>
      rw [hfa] at h
      simp only [bind, Except.bind] at h
      exact ih a1 a' (hf a x a1 ha hfa) h

lemma getD_set {α : Type} (l : List α) (i j : ℕ) (v d : α) :
    (l.set i v).getD j d =
      if i = j ∧ j < l.length then v else l.getD j d := by
  rw [List.getD_eq_getElem?_getD, List.getD_eq_getElem?_getD, List.getElem?_set]
  by_cases hij : i = j
  · subst hij
    by_cases hlen : i < l.length
    · simp [hlen]
    · have hnot : ¬ (i = i ∧ i < l.length) := fun h => hlen h.2
      rw [if_neg hnot, if_neg hlen]
      rw [List.getElem?_eq_none (Nat.le_of_not_lt hlen)]
      simp
  · simp [hij]

lemma dpInsert_mem (key : StateKey) (val : ℚ × ℚ × ℕ) (tr : Transition)
    (acc : DPTable × PrevTable) :
    ∀ e ∈ (dpInsert key val tr acc).1, e ∈ acc.1 ∨ e.1 = key := by
  intro e he
  unfold dpInsert at he
  split_ifs at he with h
  · rcases mem_dictSet _ _ _ e he with hmem | hkey
    · exact Or.inl hmem
    · exact Or.inr (by rw [hkey])
  · exact Or.inl he

lemma processOptionCommit_mem (inp : FixedPathInputs) (idx : ℕ) (level : ℤ)
    (inv_enc : List ℤ) (base_cost base_time arrival_time_hr : ℚ)
    (battery_source_idx : ℕ) (battery_states : List BatteryCountState)
    (last_visit_list : List (Option ℤ)) (inv_idx : ℕ)
    (bs_clone : BatteryCountState) (charged_effective : ℤ) (cand : Candidate)
    (oi : ℕ) (o : SegmentOption) (new_level : ℤ) (acc : DPTable × PrevTable) :
    ∀ e ∈ (processOptionCommit inp idx level inv_enc base_cost base_time
        arrival_time_hr battery_source_idx battery_states last_visit_list
        inv_idx bs_clone charged_effective cand oi o new_level acc).1,
      e ∈ acc.1 ∨ e.1.1 = new_level := by
  intro e he
  unfold processOptionCommit at he
  by_cases h1 : cand.swapped = true ∧ charged_effective < cand.num_containers_swapped
  · rw [if_pos h1] at he
    exact Or.inl he
  · rw [if_neg h1] at he
    rcases dpInsert_mem _ _ _ _ e he with hmem | hkey
    · exact Or.inl hmem
    · exact Or.inr (by rw [hkey])

lemma processOption_safe (inp : FixedPathInputs) (idx : ℕ) (level : ℤ)
    (inv_enc : List ℤ) (base_cost base_time arrival_time_hr : ℚ)
    (battery_source_idx : ℕ) (battery_states : List BatteryCountState)
    (last_visit_list : List (Option ℤ)) (inv_idx : ℕ)
    (bs_clone : BatteryCountState) (charged_effective : ℤ) (cand : Candidate)
    (acc : DPTable × PrevTable) (oi : ℕ) (o : SegmentOption)
    (hacc : TableSafe inp (idx + 1) acc.1) :
    TableSafe inp (idx + 1)
      (processOption inp idx level inv_enc base_cost base_time arrival_time_hr
        battery_source_idx battery_states last_visit_list inv_idx bs_clone
        charged_effective cand acc oi o).1 := by
  simp only [processOption]
  split_ifs with h1 h2 h3 h4
  · exact hacc
  · exact hacc
  · exact hacc
  · exact hacc
  · intro e he
    rcases processOptionCommit_mem inp idx level inv_enc base_cost base_time
      arrival_time_hr battery_source_idx battery_states last_visit_list
      inv_idx bs_clone charged_effective cand oi o _ acc e he with hmem | hkey
    · exact hacc e hmem
    · constructor
      · rw [hkey]
        exact not_lt.mp h3
      · intro hj
        rw [hkey]
        by_contra hfin
        exact h4 ⟨hj, not_le.mp hfin⟩

end FixedPathDP

namespace FixedPathDP

lemma processCandidate_safe (inp : FixedPathInputs) (u : List String) (idx : ℕ)
    (station : Station) (segment : Segment) (level : ℤ) (inv_enc : List ℤ)
    (base_cost base_time arrival_time_hr : ℚ) (battery_source_idx : ℕ)
    (battery_states : List BatteryCountState) (last_visit_list : List (Option ℤ))
    (acc acc' : DPTable × PrevTable) (cand : Candidate)
    (hacc : TableSafe inp (idx + 1) acc.1)
    (h : processCandidate inp u idx station segment level inv_enc base_cost
        base_time arrival_time_hr battery_source_idx battery_states
        last_visit_list acc cand = Except.ok acc') :
    TableSafe inp (idx + 1) acc'.1 := by
  unfold processCandidate at h
  cases hidx : u.findIdx? (fun n => decide (n = station.name)) with
  | none => rw [hidx] at h; cases h
  | some inv_idx =>
    rw [hidx] at h
    simp only [] at h
    by_cases hlen : inv_idx < battery_states.length
    · rw [if_pos hlen] at h
      cases hget : battery_states.get? inv_idx with
      | none => rw [hget] at h; cases h
      | some charged_state =>
        rw [hget] at h
        injection h with h
        subst h
        exact foldl_preserve
          (fun a p ha => processOption_safe inp idx level inv_enc base_cost
            base_time arrival_time_hr battery_source_idx battery_states
            last_visit_list inv_idx _ _ cand a p.1 p.2 ha)
          _ acc hacc
    · rw [if_neg hlen] at h
      cases h

end FixedPathDP

namespace FixedPathDP

lemma processStateEntry_safe (inp : FixedPathInputs) (u : List String) (idx : ℕ)
    (station : Station) (segment : Segment) (acc acc' : DPTable × PrevTable)
    (entry : StateKey × (ℚ × ℚ × ℕ))
    (hacc : TableSafe inp (idx + 1) acc.1)
    (h : processStateEntry inp u idx station segment acc entry = Except.ok acc') :
    TableSafe inp (idx + 1) acc'.1 := by
  unfold processStateEntry at h
  simp only [bind, Except.bind] at h
  cases hdec : decode_inventory u.length entry.1.2 with
  | error e => rw [hdec] at h; cases h
  | ok decoded =>
    rw [hdec] at h
    simp only [] at h
    by_cases hlen : decoded.1.length ≠ u.length
    · rw [if_pos hlen] at h; cases h
    · rw [if_neg hlen] at h
      cases hcand : candidate_levels inp station entry.1.1 (inp.start_time_hr + entry.2.2.1) with
      | error e => rw [hcand] at h; cases h
      | ok cands =>
        rw [hcand] at h
        simp only [] at h
        exact foldlM_preserve
          (fun a c a' ha hc => processCandidate_safe inp u idx station segment
            entry.1.1 entry.1.2 entry.2.1 entry.2.2.1 (inp.start_time_hr + entry.2.2.1)
            entry.2.2.2 _ decoded.2 a a' c ha hc)
          cands acc acc' hacc h

end FixedPathDP

namespace FixedPathDP

lemma getD_map_const {α β : Type} (l : List α) (c : β) (j : ℕ) :
    (l.map (fun _ => c)).getD j c = c := by
  rw [List.getD_eq_getElem?_getD, List.getElem?_map]
  cases l[j]? <;> simp

lemma tablesSafe_init (inp : FixedPathInputs) (x : DPTable) :
    TablesSafe inp ((inp.stations.map (fun _ => ([] : DPTable))).set 0 x) := by
  intro j hj
  rw [getD_set]
  by_cases hcase : 0 = j ∧ j < (inp.stations.map (fun _ => ([] : DPTable))).length
  · exact absurd hcase.1.symm (Nat.pos_iff_ne_zero.mp hj)
  · rw [if_neg hcase, getD_map_const]
    intro e he
    cases he

lemma dpLoopAux_safe (inp : FixedPathInputs) (u : List String) :
    ∀ (l : List ℕ) (dp : List DPTable) (prev : List PrevTable) out,
    dpLoopAux inp u dp prev l = Except.ok out →
    TablesSafe inp dp → TablesSafe inp out.1 := by
  intro l
  induction l with
  | nil =>
    intro dp prev out h hdp
    unfold dpLoopAux at h
    injection h with h
    subst h
    exact hdp
  | cons idx rest ih =>
    intro dp prev out h hdp
    unfold dpLoopAux at h
    simp only [bind, Except.bind] at h
    cases hst : inp.stations.get? idx with
    | none => rw [hst] at h; simp only [] at h; cases h
    | some station =>
      rw [hst] at h
      simp only [] at h
      cases hsg : inp.segments.get? idx with
      | none => rw [hsg] at h; simp only [] at h; cases h
      | some segment =>
        rw [hsg] at h
        simp only [] at h
        cases hfold : List.foldlM (processStateEntry inp u idx station segment)
            (dp.getD (idx + 1) [], prev.getD (idx + 1) []) (dp.getD idx []) with
        | error e => rw [hfold] at h; cases h
        | ok next =>
          rw [hfold] at h
          have hnext : TableSafe inp (idx + 1) next.1 :=
            foldlM_preserve
              (fun a b a' ha hb =>
                processStateEntry_safe inp u idx station segment a a' b ha hb)
              _ _ _ (hdp (idx + 1) (Nat.le_add_left 1 idx)) hfold
          apply ih _ _ out h
          intro j hj
          rw [getD_set]
          by_cases hcase : idx + 1 = j ∧ j < dp.length
          · rw [if_pos hcase, ← hcase.1]
            exact hnext
          · rw [if_neg hcase]
            exact hdp j hj

end FixedPathDP

namespace FixedPathDP

lemma foldl_reaches {α β : Type} (R : α → β → Prop) (f : Option β → α → Option β)
    (hf : ∀ acc x, f acc x = acc ∨ ∃ y, f acc x = some y ∧ R x y) :
    ∀ (l : List α) (acc : Option β) (b : β),
      l.foldl f acc = some b → acc = some b ∨ ∃ x ∈ l, R x b := by
  intro l
  induction l with
  | nil =>
    intro acc b h
    exact Or.inl h
  | cons x xs ih =>
    intro acc b h
    rw [List.foldl_cons] at h
    rcases ih (f acc x) b h with h1 | h1
    · rcases hf acc x with h2 | ⟨y, h2, h3⟩
      · exact Or.inl (h2 ▸ h1)
      · rw [h2] at h1
        injection h1 with h1
        exact Or.inr ⟨x, List.mem_cons_self _ _, h1 ▸ h3⟩
    · obtain ⟨x', hx', hr⟩ := h1
      exact Or.inr ⟨x', List.mem_cons_of_mem _ hx', hr⟩

lemma select_terminal_mem (inp : FixedPathInputs) (dp : List DPTable)
    (b : ℤ × List ℤ × ℚ × ℚ)
    (h : select_terminal_state inp dp = Except.ok b) :
    ∃ v, ((b.1, b.2.1), v) ∈ dp.getD (inp.stations.length - 1) [] := by
  simp only [select_terminal_state] at h
  split at h
  · cases h
  · next bb heq =>
    injection h with h
    subst h
    rcases foldl_reaches
        (fun (entry : StateKey × (ℚ × ℚ × ℕ)) y =>
          y = (entry.1.1, entry.1.2, entry.2.1, entry.2.2.1)) _
        (fun acc entry => by
          by_cases h1 : entry.1.1 < toStep inp inp.final_soc_min_kwh
          · exact Or.inl (by simp [h1])
          · by_cases h2 : improves entry.2.1 entry.2.2.1
                (acc.map (fun b => (b.2.2.1, b.2.2.2.2))) = true
            · exact Or.inr ⟨(entry.1.1, entry.1.2, entry.2.1, entry.2.2.1),
                by simp [h1, h2], rfl⟩
            · exact Or.inl (by simp [h1, h2]))
        _ _ _ heq with h1 | ⟨entry, hmem, hR⟩
    · cases h1
    · refine ⟨entry.2, ?_⟩
      rw [hR]
      exact hmem
end FixedPathDP

namespace FixedPathDP

lemma reconstructLoop_spec (inp : FixedPathInputs) (prevT : List PrevTable)
    (dp : List DPTable) (hdp : TablesSafe inp dp) :
    ∀ (i : ℕ) (key : StateKey) (cc ct : ℚ) (acc out : List StepResult),
    reconstructLoop inp prevT dp i key cc ct acc = Except.ok out →
    (∃ v, (key, v) ∈ dp.getD i []) →
    ∃ steps', out = acc ++ steps' ∧ steps'.length = i ∧
      (∀ s ∈ steps', inp.min_soc_kwh ≤ s.soc_after_segment_kwh) ∧
      (∀ s ∈ steps'.dropLast, inp.min_soc_kwh ≤ s.soc_before_kwh) ∧
      (∀ s, steps'.head? = some s → s.soc_after_segment_kwh = fromStep inp key.1) := by
  intro i
  induction i with
  | zero =>
    intro key cc ct acc out h hkey
    unfold reconstructLoop at h
    injection h with h
    subst h
    exact ⟨[], by simp, rfl, by simp, by simp, by simp⟩
  | succ i ih =>
    intro key cc ct acc out h hkey
    have hsafe : LevelSafe inp (i + 1) key := by
      obtain ⟨v', hv'⟩ := hkey
      exact hdp (i + 1) (Nat.le_add_left 1 i) _ hv'
    unfold reconstructLoop at h
    simp only [bind, Except.bind] at h
    cases htr : dictGet (prevT.getD (i + 1) []) key with
    | none => rw [htr] at h; simp only [] at h; cases h
    | some transition =>
      rw [htr] at h
      simp only [] at h
      cases hpi : transition.prev_inventory with
      | none => rw [hpi] at h; simp only [] at h; cases h
      | some prev_inv =>
        rw [hpi] at h
        simp only [] at h
        cases hstn : inp.stations.get? i with
        | none => rw [hstn] at h; simp only [] at h; cases h
        | some station =>
          rw [hstn] at h
          simp only [] at h
          cases hseg : inp.segments.get? i with
          | none => rw [hseg] at h; simp only [] at h; cases h
          | some segment =>
            rw [hseg] at h
            simp only [] at h
            cases hopt : segment.options.get? transition.option_index with
            | none => rw [hopt] at h; simp only [] at h; cases h
            | some option =>
              rw [hopt] at h
              simp only [] at h
              cases harr : dictGet (dp.getD i []) (transition.prev_level, prev_inv) with
              | none => rw [harr] at h; simp only [] at h; cases h
              | some v =>
                rw [harr] at h
                simp only [] at h
                have hmem_prev : ∃ w, ((transition.prev_level, prev_inv), w) ∈ dp.getD i [] :=
                  ⟨v, dictGet_mem _ _ _ harr⟩
                obtain ⟨steps'', h1, h2, h3, h4, h5⟩ := ih _ _ _ _ out h hmem_prev
                refine ⟨mkReconStep inp station option transition key.1
                  (inp.start_time_hr + v.2.1) cc ct :: steps'', ?_, ?_, ?_, ?_, ?_⟩
                · rw [h1, List.append_assoc]
                  rfl
                · simp [h2]
                · intro s hs
                  rcases List.mem_cons.mp hs with hh | hh
                  · subst hh
                    exact hsafe.1
                  · exact h3 s hh
                · intro s hs
                  cases hsteps : steps'' with
                  | nil =>
                    rw [hsteps] at hs
                    simp at hs
                  | cons x xs =>
                    rw [hsteps] at hs
                    rw [List.dropLast_cons₂] at hs
                    rcases List.mem_cons.mp hs with hh | hh
                    · subst hh
                      have hi1 : 1 ≤ i := by
                        rw [hsteps] at h2
                        simp at h2
                        omega
                      obtain ⟨w, hw⟩ := hmem_prev
                      exact (hdp i hi1 _ hw).1
                    · apply h4
                      rw [hsteps]
                      exact hh
                · intro s hs
                  injection hs with hs
                  subst hs
                  rfl

end FixedPathDP

namespace FixedPathDP

lemma simulateStep_proj (inp : FixedPathInputs) (sim : SimState) (st : StepResult) :
    (simulateStep inp sim st).enriched_steps.map stepSocProj =
      sim.enriched_steps.map stepSocProj ++ [stepSocProj st] := by
  simp only [simulateStep]
  cases hso : inp.stations.find? (fun x => decide (x.name = st.station_name)) with
  | none => simp
  | some so => simp [stepSocProj]

lemma simFold_proj (inp : FixedPathInputs) :
    ∀ (steps : List StepResult) (sim : SimState),
    ((steps.foldl (simulateStep inp) sim).enriched_steps).map stepSocProj =
      sim.enriched_steps.map stepSocProj ++ steps.map stepSocProj := by
  intro steps
  induction steps with
  | nil => intro sim; simp
  | cons st rest ih =>
    intro sim
    rw [List.foldl_cons, ih, simulateStep_proj]
    simp

lemma simulateInventory_proj (inp : FixedPathInputs) (steps : List StepResult)
    (t : ℚ) :
    (simulateInventory inp steps t).1.map stepSocProj = steps.map stepSocProj := by
  unfold simulateInventory
  cases hlast : steps.getLast? with
  | none => simp [simFold_proj]
  | some stLast => simp [simFold_proj]

end FixedPathDP

namespace FixedPathDP

lemma proj_mem_transfer {l1 l2 : List StepResult} {P : ℚ × ℚ → Prop}
    (h : l1.map stepSocProj = l2.map stepSocProj)
    (hP : ∀ s ∈ l2, P (stepSocProj s)) : ∀ s ∈ l1, P (stepSocProj s) := by
  intro s hs
  have hm : stepSocProj s ∈ l2.map stepSocProj := h ▸ List.mem_map_of_mem _ hs
  obtain ⟨u, hu, huv⟩ := List.mem_map.mp hm
  exact huv ▸ hP u hu

lemma reverse_tail_eq (l : List StepResult) :
    l.reverse.tail = l.dropLast.reverse := by
  have h := List.dropLast_reverse l.reverse
  rw [List.reverse_reverse] at h
  rw [h, List.reverse_reverse]

/-- C1 (amended): for every input and every solution `solve` returns, every step's post-segment SoC is at least the minimum operating SoC, every step after the first also satisfies that floor on its pre-arrival SoC, and the terminal step's post-segment SoC meets the final-SoC minimum. The original claim (the floor also on the first step's `soc_before_kwh`) is refuted by the counterexample below. -/
theorem solve_soc_floor_invariant (inp : FixedPathInputs) (r : OptimisationResult)
    (hok : solve inp = Except.ok r) :
    (∀ s ∈ r.steps, inp.min_soc_kwh ≤ s.soc_after_segment_kwh) ∧
    (∀ s ∈ r.steps.tail, inp.min_soc_kwh ≤ s.soc_before_kwh) ∧
    (∀ s, r.steps.getLast? = some s →
      inp.final_soc_min_kwh ≤ s.soc_after_segment_kwh) := by
  unfold solve at hok
  by_cases hpre : preCheckFails inp = true
  · rw [if_pos hpre] at hok
    cases hok
  · rw [if_neg hpre] at hok
    simp only [bind, Except.bind] at hok
    split at hok
    · cases hok
    · -- past the encoding-length check
      split at hok
      · cases hok
      next tables htab =>
        split at hok
        · cases hok
        next best hbest =>
          split at hok
          · cases hok
          next steps_rev hrec =>
            injection hok with hok
            subst hok
            have hts : TablesSafe inp tables.1 :=
              dpLoopAux_safe inp _ _ _ _ tables htab (tablesSafe_init inp _)
            obtain ⟨v0, hv0⟩ := select_terminal_mem inp tables.1 best hbest
            obtain ⟨steps', h1, h2, h3, h4, h5⟩ :=
              reconstructLoop_spec inp tables.2 tables.1 hts
                (inp.stations.length - 1) (best.1, best.2.1) best.2.2.1
                best.2.2.2 [] steps_rev hrec ⟨v0, hv0⟩
            rw [List.nil_append] at h1
            subst h1
            have hproj :
                ((simulateInventory inp steps_rev.reverse best.2.2.2).1).map stepSocProj
                  = steps_rev.reverse.map stepSocProj :=
              simulateInventory_proj inp _ _
            refine ⟨?_, ?_, ?_⟩
            · intro s hs
              exact proj_mem_transfer (P := fun p => inp.min_soc_kwh ≤ p.2) hproj
                (fun u hu => h3 u (List.mem_reverse.mp hu)) s hs
            · intro s hs
              have hproj2 :
                  ((simulateInventory inp steps_rev.reverse best.2.2.2).1).tail.map stepSocProj
                    = steps_rev.reverse.tail.map stepSocProj := by
                rw [List.map_tail, List.map_tail, hproj]
              have hP2 : ∀ u ∈ steps_rev.reverse.tail,
                  inp.min_soc_kwh ≤ (stepSocProj u).1 := by
                intro u hu
                rw [reverse_tail_eq] at hu
                exact h4 u (List.mem_reverse.mp hu)
              exact proj_mem_transfer (P := fun p => inp.min_soc_kwh ≤ p.1) hproj2 hP2 s hs
            · intro s hs
              have hmap :
                  (((simulateInventory inp steps_rev.reverse best.2.2.2).1).getLast?).map stepSocProj
                    = (steps_rev.reverse.getLast?).map stepSocProj := by
                rw [← List.getLast?_map, ← List.getLast?_map, hproj]
              rw [hs, List.getLast?_reverse] at hmap
              cases hhd : steps_rev.head? with
              | none => rw [hhd] at hmap; cases hmap
              | some u =>
                rw [hhd] at hmap
                injection hmap with hmap
                have hlen1 : 1 ≤ inp.stations.length - 1 := by
                  cases hsr : steps_rev with
                  | nil => rw [hsr] at hhd; cases hhd
                  | cons a l =>
                    rw [hsr] at h2
                    simp at h2
                    omega
                have hfin : inp.final_soc_min_kwh ≤ fromStep inp best.1 :=
                  (hts (inp.stations.length - 1) hlen1 _ hv0).2 rfl
                have hu := h5 u hhd
                have : (stepSocProj s).2 = (stepSocProj u).2 := by rw [hmap]
                simp only [stepSocProj] at this
                rw [this, hu]
                exact hfin

end FixedPathDP

namespace FixedPathDP

lemma candidate_levels_force_error (inp : FixedPathInputs) (station : Station)
    (level : ℤ) (t : ℚ) (h1 : station.force_swap = true)
    (h2 : station.allow_swap = false) :
    candidate_levels inp station level t =
      Except.error ("Station " ++ station.name ++
        " requires swap but swap not allowed") := by
  unfold candidate_levels
  rw [if_pos]
  simp [h1, h2]

lemma processStateEntry_bad (inp : FixedPathInputs) (u : List String) (idx : ℕ)
    (station : Station) (segment : Segment) (acc : DPTable × PrevTable)
    (entry : StateKey × (ℚ × ℚ × ℕ)) (h1 : station.force_swap = true)
    (h2 : station.allow_swap = false) :
    ∃ e, processStateEntry inp u idx station segment acc entry =
      Except.error e := by
  unfold processStateEntry
  simp only [bind, Except.bind]
  cases hdec : decode_inventory u.length entry.1.2 with
  | error e => exact ⟨e, rfl⟩
  | ok dec =>
    simp only []
    by_cases hlen : dec.1.length ≠ u.length
    · rw [if_pos hlen]
      exact ⟨_, rfl⟩
    · rw [if_neg hlen]
      rw [candidate_levels_force_error inp station _ _ h1 h2]
      exact ⟨_, rfl⟩

lemma foldlM_cons_error {ε α β : Type} (f : α → β → Except ε α) (a : α) (x : β)
    (xs : List β) (e : ε) (h : f a x = Except.error e) :
    List.foldlM f a (x :: xs) = Except.error e := by
  rw [List.foldlM_cons, h]
  rfl

lemma dpLoopAux_append (inp : FixedPathInputs) (u : List String) :
    ∀ (l1 l2 : List ℕ) (dp : List DPTable) (prev : List PrevTable),
    dpLoopAux inp u dp prev (l1 ++ l2) =
      match dpLoopAux inp u dp prev l1 with
      | Except.error e => Except.error e
      | Except.ok t => dpLoopAux inp u t.1 t.2 l2 := by
  intro l1
  induction l1 with
  | nil =>
    intro l2 dp prev
    simp only [List.nil_append]
    rfl
  | cons idx rest ih =>
    intro l2 dp prev
    rw [List.cons_append]
    unfold dpLoopAux
    simp only [bind, Except.bind]
    cases inp.stations.get? idx with
    | none => simp only []
    | some station =>
      simp only []
      cases inp.segments.get? idx with
      | none => simp only []
      | some segment =>
        simp only []
        cases List.foldlM (processStateEntry inp u idx station segment)
            (dp.getD (idx + 1) [], prev.getD (idx + 1) []) (dp.getD idx []) with
        | error e => simp only []
        | ok next =>
          simp only []
          rw [ih l2]
          cases dpLoopAux inp u (dp.set (idx + 1) next.1)
            (prev.set (idx + 1) next.2) rest with
          | error e => rfl
          | ok t =>
            simp only []
            rw [dpLoopAux.eq_def]
            simp only [bind, Except.bind]

lemma dpLoopAux_untouched (inp : FixedPathInputs) (u : List String) :
    ∀ (l : List ℕ) (dp : List DPTable) (prev : List PrevTable) out,
    dpLoopAux inp u dp prev l = Except.ok out →
    ∀ j, (∀ idx ∈ l, idx + 1 ≠ j) → out.1.getD j [] = dp.getD j [] := by
  intro l
  induction l with
  | nil =>
    intro dp prev out h j hj
    unfold dpLoopAux at h
    injection h with h
    subst h
    rfl
  | cons idx rest ih =>
    intro dp prev out h j hj
    unfold dpLoopAux at h
    simp only [bind, Except.bind] at h
    cases hst : inp.stations.get? idx with
    | none => rw [hst] at h; simp only [] at h; cases h
    | some station =>
      rw [hst] at h
      simp only [] at h
      cases hsg : inp.segments.get? idx with
      | none => rw [hsg] at h; simp only [] at h; cases h
      | some segment =>
        rw [hsg] at h
        simp only [] at h
        cases hfold : List.foldlM (processStateEntry inp u idx station segment)
            (dp.getD (idx + 1) [], prev.getD (idx + 1) []) (dp.getD idx []) with
        | error e => rw [hfold] at h; cases h
        | ok next =>
          rw [hfold] at h
          have hrec := ih _ _ out h j
            (fun idx' hidx' => hj idx' (List.mem_cons_of_mem _ hidx'))
          rw [hrec, getD_set, if_neg]
          intro hcase
          exact hj idx (List.mem_cons_self _ _) hcase.1

lemma dpLoopAux_cons_empty (inp : FixedPathInputs) (u : List String) (i : ℕ)
    (rest : List ℕ) (dp : List DPTable) (prev : List PrevTable)
    (station : Station) (segment : Segment)
    (hst : inp.stations.get? i = some station)
    (hseg : inp.segments.get? i = some segment)
    (hemp : dp.getD i [] = []) :
    dpLoopAux inp u dp prev (i :: rest) =
      dpLoopAux inp u (dp.set (i + 1) (dp.getD (i + 1) []))
        (prev.set (i + 1) (prev.getD (i + 1) [])) rest := by
  conv_lhs => rw [dpLoopAux]
  simp only [bind, Except.bind, hst, hseg, hemp, List.foldlM_nil, pure, Except.pure]

lemma dpLoopAux_empty (inp : FixedPathInputs) (u : List String) :
    ∀ (n a : ℕ) (dp : List DPTable) (prev : List PrevTable) out,
    dpLoopAux inp u dp prev (List.range' a n) = Except.ok out →
    (∀ j, a ≤ j → dp.getD j [] = []) →
    ∀ j, a ≤ j → out.1.getD j [] = [] := by
  intro n
  induction n with
  | zero =>
    intro a dp prev out h hemp j hj
    unfold dpLoopAux at h
    injection h with h
    subst h
    exact hemp j hj
  | succ n ih =>
    intro a dp prev out h hemp j hj
    rw [List.range'_succ] at h
    cases hst : inp.stations.get? a with
    | none =>
      unfold dpLoopAux at h
      simp only [bind, Except.bind, hst] at h
      cases h
    | some station =>
      cases hsg : inp.segments.get? a with
      | none =>
        unfold dpLoopAux at h
        simp only [bind, Except.bind, hst, hsg] at h
        cases h
      | some segment =>
        rw [dpLoopAux_cons_empty inp u a _ dp prev station segment hst hsg
          (hemp a (le_refl a))] at h
        have hemp' : ∀ j', a + 1 ≤ j' →
            (dp.set (a + 1) (dp.getD (a + 1) [])).getD j' [] = [] := by
          intro j' hj'
          rw [getD_set]
          by_cases hc : a + 1 = j' ∧ j' < dp.length
          · rw [if_pos hc]
            exact hemp (a + 1) (Nat.le_succ a)
          · rw [if_neg hc]
            exact hemp j' (Nat.le_of_succ_le hj')
        rcases Nat.eq_or_lt_of_le hj with hja | hja
        · subst hja
          have huntouched := dpLoopAux_untouched inp u _ _ _ out h a
            (fun idx hidx hcontra => by
              have := (List.mem_range'_1.mp hidx).1
              omega)
          rw [huntouched, getD_set, if_neg]
          · exact hemp _ (le_refl _)
          · intro hc
            omega
        · exact ih (a + 1) _ _ out h hemp' j hja

lemma select_terminal_empty (inp : FixedPathInputs) (dp : List DPTable)
    (h : dp.getD (inp.stations.length - 1) [] = []) :
    select_terminal_state inp dp =
      Except.error "No feasible solution found for final SoC requirement" := by
  simp only [select_terminal_state, h, List.foldl_nil]

end FixedPathDP

namespace FixedPathDP

lemma dpLoopAux_bad_head (inp : FixedPathInputs) (u : List String) (i : ℕ)
    (rest : List ℕ) (dp : List DPTable) (prev : List PrevTable)
    (station : Station) (segment : Segment)
    (hst : inp.stations.get? i = some station)
    (hseg : inp.segments.get? i = some segment)
    (h1 : station.force_swap = true) (h2 : station.allow_swap = false)
    (hne : dp.getD i [] ≠ []) :
    ∃ e, dpLoopAux inp u dp prev (i :: rest) = Except.error e := by
  cases hdp : dp.getD i [] with
  | nil => exact absurd hdp hne
  | cons x xs =>
    obtain ⟨e, he⟩ := processStateEntry_bad inp u i station segment
      (dp.getD (i + 1) [], prev.getD (i + 1) []) x h1 h2
    refine ⟨e, ?_⟩
    unfold dpLoopAux
    simp only [bind, Except.bind, hst, hseg, hdp]
    rw [foldlM_cons_error _ _ _ _ _ he]

end FixedPathDP

namespace FixedPathDP

lemma dp0_getD (l : List Station) (x : DPTable) (j : ℕ) (hj : 1 ≤ j) :
    ((l.map (fun _ => ([] : DPTable))).set 0 x).getD j [] = [] := by
  rw [getD_set, if_neg, getD_map_const]
  intro hc
  omega

/-- C10: a station configured with `force_swap = true` and `allow_swap = false` makes `candidate_levels` raise an error for every arrival state, and `solve` never returns ok on a route containing such a non-terminal station: either the DP table at that index is non-empty and processing it propagates the error, or it is empty and then every later table stays empty, so terminal-state selection fails. -/
theorem force_swap_without_allow_swap_errors :
    (∀ (inp : FixedPathInputs) (station : Station) (level : ℤ) (t : ℚ),
      station.force_swap = true → station.allow_swap = false →
      candidate_levels inp station level t =
        Except.error ("Station " ++ station.name ++
          " requires swap but swap not allowed")) ∧
    (∀ (inp : FixedPathInputs) (i : ℕ) (station : Station),
      inp.stations.length = inp.segments.length + 1 →
      inp.stations.get? i = some station →
      i + 1 < inp.stations.length →
      station.force_swap = true → station.allow_swap = false →
      ∀ r, solve inp ≠ Except.ok r) := by
  constructor
  · intro inp station level t h1 h2
    exact candidate_levels_force_error inp station level t h1 h2
  · intro inp i station hlen hst hi h1 h2 r hok
    unfold solve at hok
    by_cases hpre : preCheckFails inp = true
    · rw [if_pos hpre] at hok
      cases hok
    · rw [if_neg hpre] at hok
      simp only [bind, Except.bind] at hok
      split at hok
      · cases hok
      · split at hok
        · cases hok
        next tables htab =>
          split at hok
          · cases hok
          next best hbest =>
            have hm : i < inp.segments.length := by omega
            have hsplit : List.range inp.segments.length =
                List.range' 0 i ++ List.range' i (inp.segments.length - i) := by
              rw [List.range_eq_range']
              have happ := List.range'_append_1 0 i (inp.segments.length - i)
              rw [Nat.add_comm (inp.segments.length - i) i, Nat.zero_add] at happ
              have hlen2 : inp.segments.length = i + (inp.segments.length - i) := by
                omega
              nth_rewrite 1 [hlen2]
              exact happ.symm
            rw [hsplit, dpLoopAux_append] at htab
            split at htab
            · cases htab
            next t0 heq =>
              have hmi : inp.segments.length - i = (inp.segments.length - i - 1) + 1 := by
                omega
              rw [hmi, List.range'_succ] at htab
              cases hsg : inp.segments.get? i with
              | none =>
                have := List.get?_eq_none.mp hsg
                omega
              | some segment =>
                cases hAi : t0.1.getD i [] with
                | cons x xs =>
                  obtain ⟨e, he⟩ := dpLoopAux_bad_head inp
                    (uniqueStationNames inp.stations) i _ t0.1 t0.2 station
                    segment hst hsg h1 h2 (by rw [hAi]; simp)
                  rw [he] at htab
                  cases htab
                | nil =>
                  rw [dpLoopAux_cons_empty inp (uniqueStationNames inp.stations)
                    i _ t0.1 t0.2 station segment hst hsg hAi] at htab
                  have hupper : ∀ j, i + 1 ≤ j → t0.1.getD j [] = [] := by
                    intro j hj
                    have huntouched := dpLoopAux_untouched inp
                      (uniqueStationNames inp.stations) _ _ _ t0 heq j
                      (fun idx hidx hcontra => by
                        have := (List.mem_range'_1.mp hidx).2
                        omega)
                    rw [huntouched]
                    exact dp0_getD _ _ _ (by omega)
                  have hemp' : ∀ j, i + 1 ≤ j →
                      (t0.1.set (i + 1) (t0.1.getD (i + 1) [])).getD j [] = [] := by
                    intro j hj
                    rw [getD_set]
                    by_cases hc : i + 1 = j ∧ j < t0.1.length
                    · rw [if_pos hc]
                      exact hupper (i + 1) (le_refl _)
                    · rw [if_neg hc]
                      exact hupper j hj
                  have hfinal := dpLoopAux_empty inp (uniqueStationNames inp.stations)
                    _ _ _ _ tables htab hemp' (inp.stations.length - 1) (by omega)
                  rw [select_terminal_empty inp tables.1 hfinal] at hbest
                  cases hbest

end FixedPathDP

namespace FixedPathDP

/-- C1 witness: the amended invariant instantiated at the concrete input exInpC1, whose solved route has one step. -/
theorem solve_soc_floor_invariant_wit :
    (∀ s ∈ rC1.steps, exInpC1.min_soc_kwh ≤ s.soc_after_segment_kwh) ∧
    (∀ s ∈ rC1.steps.tail, exInpC1.min_soc_kwh ≤ s.soc_before_kwh) ∧
    (∀ s, rC1.steps.getLast? = some s →
      exInpC1.final_soc_min_kwh ≤ s.soc_after_segment_kwh) :=
  solve_soc_floor_invariant exInpC1 rC1 (by with_unfolding_all rfl)

end FixedPathDP


namespace FixedPathDP

lemma pyRound_intCast (n : ℤ) : pyRound (n : ℚ) = n := by
  simp only [pyRound, Int.floor_intCast]
  norm_num

lemma stationEnergyBound_none_iff (inp : FixedPathInputs) (l : List Station) :
    stationEnergyBound inp l = none ↔ ∃ s ∈ l, s.available_batteries = none := by
  induction l with
  | nil => simp [stationEnergyBound]
  | cons s rest ih =>
    cases h : s.available_batteries with
    | none => simp [stationEnergyBound, h]
    | some a => simp [stationEnergyBound, h, ih, Option.map_eq_none']

lemma stationEnergyBound_eq_sum (inp : FixedPathInputs) (l : List Station)
    (h : ∀ s ∈ l, s.available_batteries ≠ none) :
    stationEnergyBound inp l = some ((l.map (specStationEnergyTerm inp)).sum) := by
  induction l with
  | nil => simp [stationEnergyBound]
  | cons s rest ih =>
    obtain ⟨a, ha⟩ := Option.ne_none_iff_exists'.mp (h s (by simp))
    rw [List.map_cons, List.sum_cons]
    simp only [stationEnergyBound, ha]
    rw [ih (fun x hx => h x (List.mem_cons_of_mem _ hx))]
    simp only [Option.map_some']
    congr 1
    simp only [specStationEnergyTerm, ha, Option.getD_some]

/-- C3: `preCheckFails` holds iff every station has a finite ready count and the initial SoC plus the station-side bound Σ min(total, ready + ⌊dwell charge / container⌋) × container falls short of total leg energy plus the final-SoC floor by more than the 1e-9 tolerance; when it holds, `solve` raises the energy-balance error before any DP propagation. A station with unset available count makes the bound `none`, so the check is skipped. -/
theorem precheck_energy_balance (inp : FixedPathInputs) :
    (preCheckFails inp = true ↔
      ((∀ s ∈ inp.stations, s.available_batteries ≠ none) ∧
        inp.initial_soc_kwh + ((inp.stations.map (specStationEnergyTerm inp)).sum) <
          totalSegmentEnergy inp + inp.final_soc_min_kwh - tol)) ∧
    (preCheckFails inp = true →
      solve inp = Except.error "No feasible solution: Total energy below required for journey") := by
  constructor
  · unfold preCheckFails
    cases hb : stationEnergyBound inp inp.stations with
    | none =>
      simp only [Bool.false_eq_true, false_iff]
      rintro ⟨hall, -⟩
      rw [stationEnergyBound_none_iff] at hb
      obtain ⟨s, hs, h0⟩ := hb
      exact hall s hs h0
    | some q =>
      have hall : ∀ s ∈ inp.stations, s.available_batteries ≠ none := by
        intro s hs h0
        have hnone : stationEnergyBound inp inp.stations = none :=
          (stationEnergyBound_none_iff inp inp.stations).mpr ⟨s, hs, h0⟩
        rw [hnone] at hb
        cases hb
      have hq := stationEnergyBound_eq_sum inp inp.stations hall
      rw [hq] at hb
      injection hb with hb'
      subst hb'
      rw [decide_eq_true_eq]
      unfold requiredTotalEnergy
      constructor
      · intro h
        exact ⟨hall, h⟩
      · rintro ⟨-, h⟩
        exact h
  · intro h
    simp [solve, h]

/-- C2: for distance d ≥ 0 and mode laden or unladen, `compute_segment_energy` fails with the domain error iff the mode's vessel speed plus the current is ≤ 0, and otherwise returns energy = distance × base-consumption × multiplier (1.2 for head current c < 0, 0.8 for tail current c > 0, 1 for c = 0) and travel time = distance / (speed + current). -/
theorem compute_segment_energy_correct (d c bcl bcu bsl bsu : ℚ) (m : String)
    (hd : 0 ≤ d) (hm : m = "laden" ∨ m = "unladen") :
    ((if m = "unladen" then bsu else bsl) + c ≤ 0 →
      compute_segment_energy d c m bcl bcu bsl bsu =
        Except.error "Ground speed non-positive") ∧
    (0 < (if m = "unladen" then bsu else bsl) + c →
      compute_segment_energy d c m bcl bcu bsl bsu =
        Except.ok (d * (if m = "unladen" then bcu else bcl) *
            (if c = 0 then 1 else if c < 0 then 12/10 else 8/10),
          d / ((if m = "unladen" then bsu else bsl) + c))) := by
  rcases hm with h | h <;> subst h
  · have h1 : (if ("laden" : String) = "" then "laden" else "laden").toLower = "laden" := by
      with_unfolding_all rfl
    have h2 : (("laden" : String) = "unladen") = False := eq_false (by decide)
    refine ⟨fun hle => ?_, fun hlt => ?_⟩
    · simp only [h2, if_false] at hle
      simp only [compute_segment_energy, h1, h2, if_false]
      rw [if_pos hle]
    · simp only [h2, if_false] at hlt
      simp only [compute_segment_energy, h1, h2, if_false]
      rw [if_neg (not_le.mpr hlt)]
  · have h1 : (if ("unladen" : String) = "" then "laden" else "unladen").toLower = "unladen" := by
      with_unfolding_all rfl
    have h2 : (("unladen" : String) = "unladen") = True := eq_true rfl
    refine ⟨fun hle => ?_, fun hlt => ?_⟩
    · simp only [h2, if_true] at hle
      simp only [compute_segment_energy, h1, h2, if_true]
      rw [if_pos hle]
    · simp only [h2, if_true] at hlt
      simp only [compute_segment_energy, h1, h2, if_true]
      rw [if_neg (not_le.mpr hlt)]

/-- C2 witness: the positive-denominator branch at distance 40, current 0, laden. -/
theorem compute_segment_energy_correct_wit :
    compute_segment_energy 40 0 "laden" 245 207 5 6 =
      Except.ok (40 * (if ("laden" : String) = "unladen" then 207 else 245) *
          (if (0:ℚ) = 0 then 1 else if (0:ℚ) < 0 then 12/10 else 8/10),
        40 / ((if ("laden" : String) = "unladen" then 6 else 5) + 0)) :=
  (compute_segment_energy_correct 40 0 245 207 5 6 "laden" (by norm_num) (Or.inl rfl)).2 (by simp)

/-- C7: `_improves` accepts iff the stored entry is absent (the Python table's infinite cost), or the new cost beats the stored cost by more than the 1e-9 tolerance, or the two costs agree within the tolerance and the new time beats the stored time by more than it; in particular a path with exactly the stored (cost, time) never replaces the entry. -/
theorem improves_dominance_rule (new_cost new_time : ℚ) (old : Option (ℚ × ℚ)) :
    (improves new_cost new_time old = true ↔
      old = none ∨ ∃ old_cost old_time, old = some (old_cost, old_time) ∧
        (new_cost < old_cost - tol ∨
          (|new_cost - old_cost| ≤ tol ∧ new_time < old_time - tol))) ∧
    improves new_cost new_time (some (new_cost, new_time)) = false := by
  constructor
  · match old with
    | none => simp [improves]
    | some (oc, ot) =>
      simp only [improves, Option.some.injEq, Prod.mk.injEq]
      constructor
      · intro h
        refine Or.inr ⟨oc, ot, ⟨rfl, rfl⟩, ?_⟩
        by_cases h1 : new_cost < oc - tol
        · exact Or.inl h1
        · rw [if_neg h1] at h
          by_cases h2 : |new_cost - oc| ≤ tol ∧ new_time < ot - tol
          · exact Or.inr h2
          · rw [if_neg h2] at h
            exact absurd h (by simp)
      · rintro (h | ⟨a, b, ⟨ha, hb⟩, hcase⟩)
        · exact absurd h (by simp)
        · subst ha
          subst hb
          rcases hcase with h1 | h2
          · rw [if_pos h1]
          · by_cases h1 : new_cost < oc - tol
            · rw [if_pos h1]
            · rw [if_neg h1, if_pos h2]
  · simp only [improves, tol]
    rw [if_neg (by norm_num), if_neg (by norm_num)]

/-- C8: for every state and n > 0, `add_depleted_batteries` adds exactly n × arrival_soc × capacity-per-container to `partial_energy_kwh` and leaves both `charged` and `total` unchanged; moreover none of `add_energy`, `remove_n_highest` or `add_depleted_batteries` ever changes `total`. -/
theorem add_depleted_frame_effect (s : BatteryCountState) (n : ℤ) (arrival_soc : ℚ) (hn : 0 < n) :
    (s.add_depleted_batteries n arrival_soc).partial_energy_kwh =
      s.partial_energy_kwh + (n : ℚ) * arrival_soc * s.capacity_per_battery_kwh ∧
    (s.add_depleted_batteries n arrival_soc).charged = s.charged ∧
    (s.add_depleted_batteries n arrival_soc).total = s.total ∧
    (∀ e eff msoc, (s.add_energy e eff msoc).total = s.total) ∧
    (∀ m, ((s.remove_n_highest m).1).total = s.total) ∧
    (∀ m soc, (s.add_depleted_batteries m soc).total = s.total) := by
  have hn' : ¬ n ≤ 0 := not_le.mpr hn
  refine ⟨?_, ?_, ?_, ?_, ?_, ?_⟩
  · simp only [BatteryCountState.add_depleted_batteries, if_neg hn']
    ring
  · simp [BatteryCountState.add_depleted_batteries, hn']
  · simp [BatteryCountState.add_depleted_batteries, hn']
  · intro e eff msoc
    simp only [BatteryCountState.add_energy]
    split_ifs <;> rfl
  · intro m
    rfl
  · intro m soc
    simp only [BatteryCountState.add_depleted_batteries]
    split_ifs <;> rfl

/-- C8 witness: the buffer increment at a concrete state with n = 1 and arrival SoC 0.2. -/
theorem add_depleted_frame_effect_wit :
    (BatteryCountState.add_depleted_batteries ⟨100, 2, 4, 2/10, 0⟩ 1 (2/10)).partial_energy_kwh =
      (⟨100, 2, 4, 2/10, 0⟩ : BatteryCountState).partial_energy_kwh +
        ((1 : ℤ) : ℚ) * (2/10) * (⟨100, 2, 4, 2/10, 0⟩ : BatteryCountState).capacity_per_battery_kwh :=
  (add_depleted_frame_effect ⟨100, 2, 4, 2/10, 0⟩ 1 (2/10) (by norm_num)).1

/-- C9 (code bug): a `FixedPathInputs` whose only station has `available_batteries = 5` exceeding `total_batteries = 3` passes validation (`postInit` returns ok): the source's `__post_init__` never compares the two fields, so the claimed ready ≤ total validation error is not raised. -/
theorem available_exceeds_total_accepted :
    postInit inpC9 = Except.ok () ∧
    inpC9.stations.map (fun s => (s.available_batteries, s.total_batteries)) =
      [(some 5, some 3)] := by
  constructor <;> with_unfolding_all rfl

/-- C4 (code bug): at a concrete input where every hybrid candidate's partial swap leaves the post-swap SoC well below capacity with 500 kW of charging power available, every emitted hybrid candidate still reports `energy_charged_kwh = 0`: the source sets `soc_after_swap` to full capacity unconditionally (line 1017), so the head-room `capacity - soc_after_swap` is always 0, refuting the claim that the charged energy is positive whenever post-swap SoC is below capacity and charging power positive. -/
theorem hybrid_charge_zero_bug :
    (candidate_levels inpC4 stC4 6000 0).map (fun l =>
        (l.filter (fun c => c.operation_type = "hybrid")).map
          (fun c => (c.num_containers_swapped, c.energy_charged_kwh))) =
      Except.ok [(1, 0), (2, 0), (1, 0), (2, 0), (1, 0), (2, 0), (1, 0), (2, 0), (1, 0), (2, 0)] ∧
    fromStep inpC4 6000 + 1 * inpC4.battery_container_capacity_kwh <
      inpC4.battery_capacity_kwh ∧
    0 < min stC4.charging_power_kw inpC4.vessel_charging_power_kw := by
  refine ⟨by with_unfolding_all rfl, ?_, ?_⟩ <;>
    norm_num [fromStep, inpC4, stC4]

/-- C5 (code bug): the update of the last-departure map sits outside the per-step loop (line 1387), so on the route A,B,C,B where the first visit to B swaps all 4 containers, the revisit at t = 40 still finds no recorded departure and receives zero background precharge (`station_charged_before = 0` at every stop, arrival events show 0 ready containers restored), even though the elapsed 31.5 h of 2000 kW background charging would restore all 4 containers: min(⌊elapsed-energy / per-container-need⌋, total) = 4. -/
theorem last_departure_not_updated_bug :
    (simulateInventory inpC5 stepsC5 40).1.map
        (fun s => (s.station_name, s.station_charged_before, s.station_charged_after)) =
      [("B", some 0, some 0), ("C", some 0, some 0), ("B", some 0, some 0)] ∧
    (simulateInventory inpC5 stepsC5 40).1.map (fun s => s.station_events) =
      [[StationEvent.arrival 8 (some 0) (some 4)],
       [StationEvent.arrival (33/2) (some 0) (some 0)],
       [StationEvent.arrival 40 (some 0) (some 4)]] ∧
    min ⌊(simBgPowerCandidate stB5 * (40 - 17/2) * stB5.charging_efficiency) /
        ((stB5.min_swap_soc - 2/10) * inpC5.battery_container_capacity_kwh)⌋
      (stB5.total_batteries.getD 0) = 4 := by
  refine ⟨?_, ?_, ?_⟩ <;> with_unfolding_all rfl

end FixedPathDP

namespace FixedPathDP

/-- C6 counterexample: a station satisfying the claim's three conditions (`mandatory_stop = false`, `allow_swap = false`, charging disallowed) but with `force_swap = true` makes candidate generation raise an error instead of emitting the pass-through candidate. -/
theorem pass_through_force_swap_cex :
    candidate_levels inpC4 stC6 5 0 =
      Except.error "Station P requires swap but swap not allowed" ∧
    stC6.mandatory_stop = false ∧ stC6.allow_swap = false ∧
    stC6.charging_allowed = false := by
  refine ⟨by with_unfolding_all rfl, rfl, rfl, rfl⟩

/-- C6 (amended): a station with `mandatory_stop = false`, `allow_swap = false`, charging disallowed and additionally `force_swap = false` yields exactly one candidate: berth time 0, operation cost 0, no hotelling or precharge energy, and post-operation level equal to the arrival level. The extra `force_swap = false` premise is necessary: the counterexample below shows a station with the claim's three flags raising instead. -/
theorem pass_through_candidate (inp : FixedPathInputs) (station : Station) (level : ℤ) (t : ℚ)
    (hm : station.mandatory_stop = false) (hs : station.allow_swap = false)
    (hc : station.charging_allowed = false) (hf : station.force_swap = false)
    (hl : 0 ≤ level) (hstep : 0 < inp.soc_step_kwh) :
    candidate_levels inp station level t =
      Except.ok [⟨level, 0, 0, false, false, "none", 0, 0, 0, 0⟩] := by
  have hfs : (0 : ℚ) ≤ fromStep inp level := by
    unfold fromStep
    exact mul_nonneg (by exact_mod_cast hl) hstep.le
  have hlev : toStep inp (max 0 (fromStep inp level - 0)) = level := by
    rw [sub_zero, max_eq_right hfs]
    unfold toStep fromStep
    rw [mul_div_assoc, div_self hstep.ne', mul_one, pyRound_intCast]
  simp only [candidate_levels, hm, hs, hc, hf, Bool.false_eq_true, not_false_eq_true,
    and_true, false_and, and_false, if_false, Bool.false_and, ite_false, ite_true,
    lt_irrefl, if_true, not_true, Bool.true_and]
  simp only [hlev]
  rfl

end FixedPathDP

namespace FixedPathDP

/-- C6 witness: the amended pass-through property at a concrete station with all four flags false. -/
theorem pass_through_candidate_wit :
    candidate_levels inpC4 stC6ok 5 0 =
      Except.ok [⟨5, 0, 0, false, false, "none", 0, 0, 0, 0⟩] :=
  pass_through_candidate inpC4 stC6ok 5 0 rfl rfl rfl rfl (by norm_num) (by norm_num [inpC4])

/-- C1 counterexample: a validated input (postInit accepts it) whose solved route's first step has `soc_before_kwh = 0` strictly below `min_soc_kwh = 2/5`: the first step's SoC-before is the re-quantised initial SoC, which the DP never checks against the floor. -/
theorem first_step_soc_floor_cex :
    postInit exInpC1 = Except.ok () ∧
    (solve exInpC1).map (fun r => r.steps.map (fun s => s.soc_before_kwh)) =
      Except.ok [0] ∧
    (0 : ℚ) < exInpC1.min_soc_kwh := by
  refine ⟨by with_unfolding_all rfl, by with_unfolding_all rfl, by norm_num [exInpC1]⟩

end FixedPathDP
